import Mathlib

/-!
Verification of the siegetank SCV shard server (`src/server/scv.py`) against
its natural-language specification.

The development shallowly embeds the server's data model and HTTP handlers:

* Redis metadata (streams, active streams, targets, the `heartbeats` sorted
  set) becomes an explicit `SCVState` record of association lists.
* The on-disk stream directory (`files/`, `buffer_*`, `<N>_*`) becomes a pair
  of finite maps from file names (lists of characters) to byte lists.
* External pure functions the handlers call (MD5 over the raw body, JSON
  parsing, base64 decoding, gunzip) are parameters collected in `Ext`;
  the handlers' logic only ever uses them as black-box functions.
* Python exceptions surface as HTTP 500 responses; writes issued before the
  raising point persist, exactly as uncommitted redis/posix effects do.

Each handler definition carries a comment pointing at the lines of
`src/server/scv.py` it embeds.
-/

/-- Bytes of a file or request body (values are opaque). -/
abbrev Bytes := List Nat

/-- A file name, as its list of characters. -/
abbrev Name := List Char

/-- Characters of a string literal, used to write `Name` constants. -/
def nm (s : String) : Name := s.data

/-- Association-list lookup: first binding of `k` wins (redis hash lookup). -/
def mget [DecidableEq α] : List (α × β) → α → Option β
  | [], _ => none
  | p :: rest, k => if p.1 = k then some p.2 else mget rest k

/-- Remove every binding of `k` (redis delete / set removal). -/
def merase [DecidableEq α] : List (α × β) → α → List (α × β)
  | [], _ => []
  | p :: rest, k => if p.1 = k then merase rest k else p :: merase rest k

/-- Upsert a binding of `k` (redis hash set / sorted-set add). -/
def mset [DecidableEq α] (m : List (α × β)) (k : α) (v : β) : List (α × β) :=
  (k, v) :: merase m k

/-- Remove one string from a plain list (redis SREM). -/
def lrem [DecidableEq α] : List α → α → List α
  | [], _ => []
  | x :: rest, k => if x = k then lrem rest k else x :: lrem rest k

/-- Set-valued add (redis SADD): append when not yet a member. -/
def saddL [DecidableEq α] (l : List α) (x : α) : List α :=
  if x ∈ l then l else l ++ [x]

theorem mget_mset_self [DecidableEq α] (m : List (α × β)) (k : α) (v : β) :
    mget (mset m k v) k = some v := by
  simp [mset, mget]

theorem mget_mset_ne [DecidableEq α] (m : List (α × β)) (k k' : α) (v : β)
    (h : k ≠ k') : mget (mset m k v) k' = mget m k' := by
  simp only [mset, mget, if_neg h]
  induction m with
  | nil => simp [merase, mget]
  | cons p rest ih =>
    by_cases hp : p.1 = k
    · simp only [merase, if_pos hp, mget, hp, if_neg h]
      exact ih
    · simp only [merase, if_neg hp, mget]
      by_cases hk : p.1 = k'
      · simp [hk]
      · simp only [if_neg hk]
        exact ih

theorem mget_merase_self [DecidableEq α] (m : List (α × β)) (k : α) :
    mget (merase m k) k = none := by
  induction m with
  | nil => simp [merase, mget]
  | cons p rest ih =>
    by_cases hp : p.1 = k
    · simpa [merase, hp] using ih
    · simpa [merase, mget, hp] using ih

theorem mget_merase_ne [DecidableEq α] (m : List (α × β)) (k k' : α)
    (h : k ≠ k') : mget (merase m k) k' = mget m k' := by
  induction m with
  | nil => rfl
  | cons p rest ih =>
    by_cases hp : p.1 = k
    · have hne : p.1 ≠ k' := fun hc => h (hp ▸ hc)
      rw [merase, if_pos hp, mget, if_neg hne]
      exact ih
    · rw [merase, if_neg hp, mget, mget]
      by_cases hk : p.1 = k'
      · rw [if_pos hk, if_pos hk]
      · rw [if_neg hk, if_neg hk]
        exact ih

theorem mem_merase [DecidableEq α] {m : List (α × β)} {k : α} {q : α × β}
    (h : q ∈ merase m k) : q ∈ m ∧ q.1 ≠ k := by
  induction m with
  | nil => simp [merase] at h
  | cons p rest ih =>
    by_cases hp : p.1 = k
    · simp only [merase, if_pos hp] at h
      exact ⟨List.mem_cons_of_mem _ (ih h).1, (ih h).2⟩
    · simp only [merase, if_neg hp, List.mem_cons] at h
      rcases h with h | h
      · subst h
        exact ⟨List.mem_cons_self _ _, hp⟩
      · exact ⟨List.mem_cons_of_mem _ (ih h).1, (ih h).2⟩

/-! ### File-system model of one stream directory -/

/-- Lookup in `files/`: a inside a finite map from names to bytes. -/
def fmGet (m : List (Name × Bytes)) (k : Name) : Option Bytes := mget m k

/-- Model of `os.rename src dst` inside one directory: fails (`none`, modelling the
raised `OSError`) when `src` does not exist; overwrites `dst` otherwise. -/
def fmRename (m : List (Name × Bytes)) (src dst : Name) :
    Option (List (Name × Bytes)) :=
  match fmGet m src with
  | none => none
  | some v => some (mset (merase m src) dst v)

/-- Model of `os.remove path`: fails when the file does not exist. -/
def fmRemove (m : List (Name × Bytes)) (k : Name) :
    Option (List (Name × Bytes)) :=
  match fmGet m k with
  | none => none
  | some _ => some (merase m k)

/-- Model of `open(path, 'ab'); write(data)`: append, creating the file if missing. -/
def fmAppend (m : List (Name × Bytes)) (k : Name) (v : Bytes) :
    List (Name × Bytes) :=
  match fmGet m k with
  | none => mset m k v
  | some old => mset m k (old ++ v)

/-- On-disk layout of `streams/<id>/`: the immutable-until-checkpoint
`files/` subdirectory and the directory root holding `buffer_*` staging
files, `<N>_*` committed frame files and `error_log.txt`. -/
structure StreamDir where
  files : List (Name × Bytes)
  root : List (Name × Bytes)
  deriving DecidableEq, Repr

/-- One observable file-system call issued by the checkpoint handler. -/
inductive FsOp where
  | renameFiles (src dst : Name)
  | renameRoot (src dst : Name)
  | writeFiles (name : Name) (data : Bytes)
  | removeFiles (name : Name)
  deriving DecidableEq, Repr

/-- Effect of one file-system call; `none` is a raised `OSError`. -/
def applyOp (d : StreamDir) : FsOp → Option StreamDir
  | .renameFiles s t => (fmRename d.files s t).map (fun m => { d with files := m })
  | .renameRoot s t => (fmRename d.root s t).map (fun m => { d with root := m })
  | .writeFiles n b => some { d with files := mset d.files n b }
  | .removeFiles n => (fmRemove d.files n).map (fun m => { d with files := m })

/-- Run file-system calls in order; on the first failure the already-applied
calls persist (a raised exception does not roll disk state back). -/
def applyOps : StreamDir → List FsOp → Bool × StreamDir
  | d, [] => (true, d)
  | d, op :: rest =>
    match applyOp d op with
    | none => (false, d)
    | some d' => applyOps d' rest

theorem applyOps_append (d : StreamDir) (l1 l2 : List FsOp) :
    applyOps d (l1 ++ l2) =
      match applyOps d l1 with
      | (false, d') => (false, d')
      | (true, d') => applyOps d' l2 := by
  induction l1 generalizing d with
  | nil => simp [applyOps]
  | cons op rest ih =>
    simp only [List.cons_append, applyOps]
    cases applyOp d op with
    | none => rfl
    | some d' => exact ih d'

/-! ### Name manipulation -/

/-- Whether `pre` begins `s` (prefix test on character lists). -/
def startsWith : Name → Name → Bool
  | [], _ => true
  | _ :: _, [] => false
  | a :: as, b :: bs => decide (a = b) && startsWith as bs

theorem startsWith_append_self (pre rest : Name) :
    startsWith pre (pre ++ rest) = true := by
  induction pre with
  | nil => rfl
  | cons a as ih => simp [startsWith, ih]

/-- Python `needle in hay`: substring containment. -/
def substrB (needle hay : Name) : Bool :=
  hay.tails.any (fun t => startsWith needle t)

/-- Decimal digits of a `Nat`, as `str(n)` produces them. -/
def natName (n : Nat) : Name := (Nat.repr n).data

/-- Name `'chkpt_' + str(k) + '_' + name` (scv.py:773). -/
def chkptName (k : Nat) (n : Name) : Name :=
  nm "chkpt_" ++ natName k ++ nm "_" ++ n

/-- Name `str(total_frames) + '_' + filename` (scv.py:778). -/
def frameName (t : Nat) (n : Name) : Name :=
  natName t ++ nm "_" ++ n

/-- Does a name carry the reserved checkpoint-sentinel prefix `chkpt_`? -/
def hasChkptPre (n : Name) : Bool := startsWith (nm "chkpt_") n

theorem hasChkptPre_chkptName (k : Nat) (n : Name) :
    hasChkptPre (chkptName k n) = true := by
  have : chkptName k n = nm "chkpt_" ++ (natName k ++ nm "_" ++ n) := by
    simp [chkptName, List.append_assoc]
  rw [hasChkptPre, this]
  exact startsWith_append_self _ _

/-- Index of the last `'.'` in a name, if any. -/
def lastDotIdx (n : Name) : Option Nat :=
  (List.range n.length).foldl
    (fun acc i => if n.get? i = some '.' then some i else acc) none

/-- Model of `os.path.splitext`: split off the extension at the last dot, unless every
character before that dot is itself a dot. -/
def splitext (n : Name) : Name × Name :=
  match lastDotIdx n with
  | none => (n, [])
  | some i =>
    if (n.take i).any (fun c => decide (c ≠ '.')) then (n.take i, n.drop i)
    else (n, [])

/-! ### Entities and global state (scv.py:41-77) -/

/-- The `Stream` entity fields (scv.py:41-46) plus the `target` back-reference
installed by `relate(Target, 'streams', {Stream}, 'target')` (scv.py:75). -/
structure StreamData where
  target : String
  frames : Nat
  status : String
  error_count : Nat
  deriving DecidableEq, Repr

/-- The `ActiveStream` entity fields (scv.py:49-59).  `frame_hash` is unset
until the first accepted frame body, and `buffer_files` is the set of base
filenames staged in the buffer. -/
structure ActiveStreamData where
  total_frames : Nat
  buffer_frames : Nat
  auth_token : String
  donor : Option String
  steps : Nat
  start_time : Nat
  frame_hash : Option String
  buffer_files : List Name
  deriving DecidableEq, Repr

/-- The `Target` entity: the priority `queue` zset (member, score) and the
`streams` relation set (scv.py:62-64, 75). -/
structure TargetData where
  queue : List (String × Nat)
  streams : List String
  deriving DecidableEq, Repr

/-- The whole shard: redis entities, the `heartbeats` zset, the per-stream
directories on disk, and the read-only external stores consulted for
authentication (`mdb.users.managers` token → user, `mdb.data.targets`
target → owner). -/
structure SCVState where
  streams : List (String × StreamData)
  active : List (String × ActiveStreamData)
  targets : List (String × TargetData)
  heartbeats : List (String × Nat)
  fs : List (String × StreamDir)
  managers : List (String × String)
  targetOwners : List (String × String)
  deriving DecidableEq, Repr

def setActive (st : SCVState) (sid : String) (a : ActiveStreamData) : SCVState :=
  { st with active := mset st.active sid a }

def setDir (st : SCVState) (sid : String) (d : StreamDir) : SCVState :=
  { st with fs := mset st.fs sid d }

/-- Directory of a stream; a missing directory behaves as an empty one
(every file operation on it fails or creates). -/
def dirGet (st : SCVState) (sid : String) : StreamDir :=
  (mget st.fs sid).getD ⟨[], []⟩

/-- Decorator `authenticate_core` (scv.py:136-153): map the Authorization token to the
active stream whose `auth_token` secondary index matches. -/
def lookupToken : List (String × ActiveStreamData) → String →
    Option (String × ActiveStreamData)
  | [], _ => none
  | (sid, a) :: rest, tok =>
    if a.auth_token = tok then some (sid, a) else lookupToken rest tok

/-- Modelled from the spec: `zrevpop` of `server/apollo.py` is not under
`src/`; per §4.2 ("activation pops the entry with the *highest* score ...
this matches the source's `zrevpop`") it removes and returns a member with
maximal score.  Ties are unspecified; this model keeps the first maximal
entry in list order. -/
def popMax : List (String × Nat) → Option ((String × Nat) × List (String × Nat))
  | [] => none
  | p :: rest =>
    match popMax rest with
    | none => some (p, [])
    | some (q, rest') =>
      if q.2 ≤ p.2 then some (p, rest) else some (q, p :: rest')

theorem popMax_eq_none {q : List (String × Nat)} (h : popMax q = none) :
    q = [] := by
  cases q with
  | nil => rfl
  | cons a as =>
    simp only [popMax] at h
    cases hq : popMax as with
    | none => rw [hq] at h; cases h
    | some pr =>
      rw [hq] at h
      by_cases hle : pr.1.2 ≤ a.2
      · simp [hle] at h
      · simp [hle] at h

theorem popMax_score_ge {q : List (String × Nat)} {p : String × Nat}
    {rest : List (String × Nat)} (h : popMax q = some (p, rest)) :
    ∀ x ∈ q, x.2 ≤ p.2 := by
  induction q generalizing p rest with
  | nil => simp [popMax] at h
  | cons a as ih =>
    intro x hx
    rcases List.mem_cons.mp hx with hx | hx
    · subst hx
      simp only [popMax] at h
      cases hq : popMax as with
      | none => rw [hq] at h; cases h; exact Nat.le_refl _
      | some pr =>
        rw [hq] at h
        by_cases hle : pr.1.2 ≤ x.2
        · simp only [hle, if_pos] at h
          cases h; exact Nat.le_refl _
        · simp only [if_neg hle] at h
          cases h
          exact Nat.le_of_lt (Nat.lt_of_not_le hle)
    · simp only [popMax] at h
      cases hq : popMax as with
      | none =>
        rw [hq] at h
        rw [popMax_eq_none hq] at hx
        simp at hx
      | some pr =>
        rw [hq] at h
        by_cases hle : pr.1.2 ≤ a.2
        · simp only [hle, if_pos] at h
          cases h
          exact Nat.le_trans (ih hq x hx) hle
        · simp only [if_neg hle] at h
          cases h
          exact ih hq x hx

/-! ### Requests, responses, external pure functions -/

/-- Response body variants the handlers produce. -/
inductive Body where
  | empty
  | err (msg : String)
  | token (t : String)
  | streamId (s : String)
  | raw (b : Bytes)
  deriving DecidableEq, Repr

/-- HTTP response: final status code and body.  An uncaught Python
exception is status 500 with an empty body. -/
structure Resp where
  status : Nat
  body : Body
  deriving DecidableEq, Repr

def ok200 : Resp := ⟨200, .empty⟩
def bare400 : Resp := ⟨400, .empty⟩
def bare401 : Resp := ⟨401, .empty⟩
def err400 (m : String) : Resp := ⟨400, .err m⟩
def err401 (m : String) : Resp := ⟨401, .err m⟩
def raise500 : Resp := ⟨500, .empty⟩

/-- Parsed `/core/frame` body (scv.py:663-671): the optional `frames` count
and the optional `files` object; a missing key raises `KeyError` at its
point of use. -/
structure FrameReq where
  framesField : Option Int
  filesField : Option (List (Name × Bytes))
  deriving DecidableEq, Repr

/-- Parsed `/core/checkpoint` body (scv.py:755, 770): the optional `files`
object. -/
structure CkReq where
  filesField : Option (List (Name × Bytes))
  deriving DecidableEq, Repr

/-- Parsed `/streams/replace` body (scv.py:928-929). -/
structure RepReq where
  filesField : Option (List (Name × Bytes))
  deriving DecidableEq, Repr

/-- Parsed `/streams` body (scv.py:371-373). -/
structure PostReq where
  target_id : String
  files : List (Name × Bytes)
  deriving DecidableEq, Repr

/-- Parsed `/streams/activate` body (scv.py:309-323). -/
structure ActReq where
  target_id : String
  donor_id : Option String
  deriving DecidableEq, Repr

/-- Parsed `/core/stop` body (scv.py:827-830), with the optional `error`
message already base64-decoded. -/
structure StopReq where
  errorField : Option Bytes
  deriving DecidableEq, Repr

/-- External pure functions and configuration: MD5 of the raw body, the JSON
parsers (deterministic functions of the body bytes: byte-identical bodies
parse identically), base64 decoding and gunzip on the successful path, and
the `heartbeat_increment` option `H` (scv.py:1160). -/
structure ExtFns where
  md5 : Bytes → String
  parseFrame : Bytes → Option FrameReq
  parseCk : Bytes → Option CkReq
  parseRep : Bytes → Option RepReq
  b64 : Bytes → Bytes
  gunzip : Bytes → Bytes
  H : Nat

/-! ### /core/frame (CoreFrameHandler.put, scv.py:597-693) -/

/-- Per-file decoding of scv.py:676-685: strip a `.b64` extension and
base64-decode, then strip a `.gz` extension and decompress. -/
def processFrameFile (E : ExtFns) (filename : Name) (filedata : Bytes) :
    Name × Bytes :=
  let s1 := splitext filename
  if s1.2 = nm ".b64" then
    let filename1 := s1.1
    let filedata1 := E.b64 filedata
    let s2 := splitext filename1
    if s2.2 = nm ".gz" then (s2.1, E.gunzip filedata1)
    else (filename1, filedata1)
  else (filename, filedata)

/-- Loop of scv.py:676-690: append every decoded file to
`buffer_<name>` in the stream directory root and `sadd` the stripped name
into `buffer_files`, threading the updated active-stream record. -/
def frameLoop (E : ExtFns) (sid : String) :
    SCVState × ActiveStreamData → List (Name × Bytes) →
    SCVState × ActiveStreamData
  | p, [] => p
  | (st, a), (n, dat) :: rest =>
    let nd := processFrameFile E n dat
    let dir := dirGet st sid
    let dir1 := { dir with root := fmAppend dir.root (nm "buffer_" ++ nd.1) nd.2 }
    let a1 := { a with buffer_files := saddL a.buffer_files nd.1 }
    frameLoop E sid (setActive (setDir st sid dir1) sid a1, a1) rest

/-- Handler `CoreFrameHandler.put` (scv.py:657-693).  Replay suppression via the MD5
of the raw body, then `frame_hash` update, JSON parse, `frames ≥ 1` check,
`buffer_files` clear, buffer appends, and `buffer_frames` increment. -/
def coreFramePut (E : ExtFns) (st : SCVState) (tok : Option String)
    (body : Bytes) : Resp × SCVState :=
  match tok with
  | none => (err401 "missing Authorization header", st)
  | some t =>
    match lookupToken st.active t with
    | none => (err401 "bad Authorization header", st)
    | some (sid, a) =>
      let h := E.md5 body
      if a.frame_hash = some h then (ok200, st)
      else
        let a1 := { a with frame_hash := some h }
        let st1 := setActive st sid a1
        match E.parseFrame body with
        | none => (raise500, st1)
        | some req =>
          let fc : Int := req.framesField.getD 1
          if req.framesField.isSome ∧ fc < 1 then
            (err400 "frames < 1", st1)
          else
            match req.filesField with
            | none => (raise500, st1)
            | some files =>
              let a2 := { a1 with buffer_files := [] }
              let st2 := setActive st1 sid a2
              let r := frameLoop E sid (st2, a2) files
              let a3 := { r.2 with buffer_frames := r.2.buffer_frames + fc.toNat }
              (ok200, setActive r.1 sid a3)

/-! ### /core/checkpoint (CoreCheckpointHandler.put, scv.py:696-798) -/

/-- The file-system calls of checkpoint steps 1-4 (scv.py:769-793), in the
order the handler issues them: rename each current checkpoint file to its
`chkpt_<P>_` sentinel, rename each buffered file to its committed
`<T>_` name, write the new checkpoint bytes, remove the sentinels. -/
def ckptOps (ck : List (Name × Bytes)) (bufs : List Name) (P T : Nat) :
    List FsOp :=
  ck.map (fun p => .renameFiles p.1 (chkptName P p.1))
    ++ bufs.map (fun n => .renameRoot (nm "buffer_" ++ n) (frameName T n))
    ++ ck.map (fun p => .writeFiles p.1 p.2)
    ++ ck.map (fun p => .removeFiles (chkptName P p.1))

/-- Handler `CoreCheckpointHandler.put` (scv.py:754-798): parse, read `frames` and
`buffer_frames`, return 200 immediately when the buffer is empty, otherwise
run the four ACID steps on disk and then commit
`frames += B; total_frames += B; buffer_frames := 0`. -/
def coreCheckpointPut (E : ExtFns) (st : SCVState) (tok : Option String)
    (body : Bytes) : Resp × SCVState :=
  match tok with
  | none => (err401 "missing Authorization header", st)
  | some t =>
    match lookupToken st.active t with
    | none => (err401 "bad Authorization header", st)
    | some (sid, a) =>
      match E.parseCk body with
      | none => (raise500, st)
      | some req =>
        match mget st.streams sid with
        | none => (raise500, st)
        | some sd =>
          if a.buffer_frames = 0 then (ok200, st)
          else
            match req.filesField with
            | none => (raise500, st)
            | some ck =>
              let P := sd.frames
              let T := sd.frames + a.buffer_frames
              let dir := dirGet st sid
              let run := applyOps dir (ckptOps ck a.buffer_files P T)
              if run.1 then
                let st1 := setDir st sid run.2
                let st2 := { st1 with
                  streams := mset st1.streams sid
                    { sd with frames := sd.frames + a.buffer_frames } }
                let st3 := setActive st2 sid
                  { a with total_frames := a.total_frames + a.buffer_frames,
                           buffer_frames := 0 }
                (ok200, st3)
              else
                (raise500, setDir st sid run.2)

/-! ### Deactivation (SCV.deactivate_stream, scv.py:1130-1154) -/

/-- Method `SCV.deactivate_stream`: no-op when no `ActiveStream` exists; otherwise
remove the heartbeat entry, delete the staged buffer files that exist,
delete the `ActiveStream`, and re-enqueue the stream with score equal to
its committed `frames`.  The returned flag is `false` when the `Stream` or
`Target` record is missing and the trailing lookups raise `KeyError`,
leaving the earlier deletions applied. -/
def deactivate_stream (st : SCVState) (sid : String) : Bool × SCVState :=
  match mget st.active sid with
  | none => (true, st)
  | some a =>
    let st1 := { st with heartbeats := merase st.heartbeats sid }
    let dir := dirGet st1 sid
    let dir1 := { dir with
      root := a.buffer_files.foldl (fun r n => merase r (nm "buffer_" ++ n)) dir.root }
    let st2 := setDir st1 sid dir1
    let st3 := { st2 with active := merase st2.active sid }
    match mget st3.streams sid with
    | none => (false, st3)
    | some sd =>
      match mget st3.targets sd.target with
      | none => (false, st3)
      | some td =>
        let td1 := { td with queue := mset td.queue sid sd.frames }
        (true, { st3 with targets := mset st3.targets sd.target td1 })

/-! ### Manager authentication -/

/-- Method `BaseHandler.get_current_user` (scv.py:95-106): look the Authorization
header token up in the managers store. -/
def currentUser (st : SCVState) (tok : Option String) : Option String :=
  match tok with
  | none => none
  | some t => mget st.managers t

/-- Modelled from the spec: the `authenticate_manager` decorator is imported
from `server.common` (scv.py:37) but not defined under `src/`; per §4.4 it
reads the `Authorization` header, looks the user up in the managers store
and rejects unknown users with 401 before the handler body runs. -/
def managerGate (st : SCVState) (tok : Option String) : Option String :=
  currentUser st tok

/-- Method `BaseHandler.get_stream_owner` (scv.py:108-113): the owner of the
stream's target, from the external target catalog; `none` when either
lookup raises. -/
def streamOwner (st : SCVState) (sid : String) : Option String :=
  match mget st.streams sid with
  | none => none
  | some sd => mget st.targetOwners sd.target

/-! ### /streams/activate (ActivateStreamHandler.post, scv.py:277-333) -/

/-- Handler `ActivateStreamHandler.post`: router-authenticated; `zrevpop` the
target's queue, mint a token, create the `ActiveStream`, and insert the
heartbeat entry at `now + heartbeat_increment`.  `fromCC` is the
`authenticate_cc` remote-ip test (scv.py:121-133); `token` is the freshly
minted `uuid4`; entity creation failing `EXISTS` is modelled from the
spec's §4.1 contract (`server/apollo.py` is not under `src/`). -/
def activatePost (st : SCVState) (fromCC : Bool) (req : Option ActReq)
    (token : String) (now H : Nat) : Resp × SCVState :=
  if ¬fromCC then (err401 "unauthorized ip", st)
  else
    match req with
    | none => (raise500, st)
    | some r =>
      match mget st.targets r.target_id with
      | none => (raise500, st)
      | some td =>
        match popMax td.queue with
        | none => (err400 "no streams available", st)
        | some (p, rest) =>
          let sid := p.1
          let td1 := { td with queue := rest }
          let st1 := { st with targets := mset st.targets r.target_id td1 }
          match mget st1.active sid with
          | some _ => (raise500, st1)
          | none =>
            let a : ActiveStreamData :=
              { total_frames := 0, buffer_frames := 0, auth_token := token,
                donor := r.donor_id, steps := 0, start_time := now,
                frame_hash := none, buffer_files := [] }
            let st2 := setActive st1 sid a
            let st3 := { st2 with heartbeats := mset st2.heartbeats sid (now + H) }
            (⟨200, .token token⟩, st3)

/-! ### /streams (PostStreamHandler.post, scv.py:336-408) -/

/-- Handler `PostStreamHandler.post`: manager-authenticated; create the target on
first use, write the uploaded files into the new stream's `files/`
directory, then atomically enqueue the stream with score 0 and create the
`Stream` record with `frames = 0`, `status = OK`, `error_count = 0`.
`sidNew` is the freshly minted `uuid4() + ':' + name` stream id; creation
failing `EXISTS` on a collision is modelled from the spec's §4.1 contract. -/
def postStreamPost (st : SCVState) (tok : Option String) (req : Option PostReq)
    (sidNew : String) : Resp × SCVState :=
  match managerGate st tok with
  | none => (err401 "not a manager", st)
  | some _user =>
    match req with
    | none => (raise500, st)
    | some r =>
      let st1 :=
        if (mget st.targets r.target_id).isNone then
          { st with targets := mset st.targets r.target_id ⟨[], []⟩ }
        else st
      let dir := dirGet st1 sidNew
      let dir1 := { dir with
        files := r.files.foldl (fun m p => mset m p.1 p.2) dir.files }
      let st2 := setDir st1 sidNew dir1
      match mget st2.streams sidNew with
      | some _ => (raise500, st2)
      | none =>
        match mget st2.targets r.target_id with
        | none => (raise500, st2)
        | some td =>
          let td1 := { td with queue := mset td.queue sidNew 0,
                               streams := sidNew :: td.streams }
          let sd : StreamData :=
            { target := r.target_id, frames := 0, status := "OK",
              error_count := 0 }
          let st3 := { st2 with targets := mset st2.targets r.target_id td1,
                                streams := mset st2.streams sidNew sd }
          (⟨200, .streamId sidNew⟩, st3)

/-! ### /streams/start (StreamStartHandler.put, scv.py:411-450) -/

/-- Handler `StreamStartHandler.put`: 400 when the stream does not exist, 401 when
the requester does not own the stream's target; otherwise, when the status
is not `OK`, atomically set `status = OK`, `error_count = 0` and enqueue
with score equal to the committed `frames`. -/
def streamStartPut (st : SCVState) (tok : Option String) (sid : String) :
    Resp × SCVState :=
  match managerGate st tok with
  | none => (err401 "not a manager", st)
  | some user =>
    if (mget st.streams sid).isNone then (bare400, st)
    else
      match streamOwner st sid with
      | none => (raise500, st)
      | some owner =>
        if owner ≠ user then (bare401, st)
        else
          match mget st.streams sid with
          | none => (raise500, st)
          | some sd =>
            match mget st.targets sd.target with
            | none => (raise500, st)
            | some td =>
              if sd.status ≠ "OK" then
                let sd1 := { sd with status := "OK", error_count := 0 }
                let td1 := { td with queue := mset td.queue sid sd.frames }
                (ok200, { st with streams := mset st.streams sid sd1,
                                  targets := mset st.targets sd.target td1 })
              else (ok200, st)

/-! ### /streams/stop (StreamStopHandler.put, scv.py:453-489) -/

/-- Handler `StreamStopHandler.put`: 400 when the stream does not exist, 401 on
owner mismatch; otherwise deactivate, and when the status is not already
`STOPPED`, atomically set `status = STOPPED` and remove the stream from the
queue.  Always replies 200 after the owner check. -/
def streamStopPut (st : SCVState) (tok : Option String) (sid : String) :
    Resp × SCVState :=
  match managerGate st tok with
  | none => (err401 "not a manager", st)
  | some user =>
    if (mget st.streams sid).isNone then (bare400, st)
    else
      match streamOwner st sid with
      | none => (raise500, st)
      | some owner =>
        if owner ≠ user then (bare401, st)
        else
          let d := deactivate_stream st sid
          if ¬d.1 then (raise500, d.2)
          else
            let st1 := d.2
            match mget st1.streams sid with
            | none => (raise500, st1)
            | some sd =>
              match mget st1.targets sd.target with
              | none => (raise500, st1)
              | some td =>
                if sd.status ≠ "STOPPED" then
                  let sd1 := { sd with status := "STOPPED" }
                  let td1 := { td with queue := merase td.queue sid }
                  (ok200, { st1 with streams := mset st1.streams sid sd1,
                                     targets := mset st1.targets sd.target td1 })
                else (ok200, st1)

/-! ### /streams/delete (StreamDeleteHandler.put, scv.py:492-535) -/

/-- Handler `StreamDeleteHandler.put`: 400 when the stream does not exist, 401 on
owner mismatch; otherwise, in one pipeline, delete the `ActiveStream` (if
any), remove the stream from the queue and delete the `Stream`; afterwards
delete the target when its stream set became empty.  Note: unlike every
other deactivation path this handler does not touch the `heartbeats`
zset (scv.py:523-532). -/
def streamDeletePut (st : SCVState) (tok : Option String) (sid : String) :
    Resp × SCVState :=
  match managerGate st tok with
  | none => (err401 "not a manager", st)
  | some user =>
    if (mget st.streams sid).isNone then (bare400, st)
    else
      match streamOwner st sid with
      | none => (raise500, st)
      | some owner =>
        if owner ≠ user then (bare401, st)
        else
          match mget st.streams sid with
          | none => (raise500, st)
          | some sd =>
            match mget st.targets sd.target with
            | none => (raise500, st)
            | some td =>
              let td1 := { td with queue := merase td.queue sid,
                                   streams := lrem td.streams sid }
              let st1 := { st with
                active := merase st.active sid,
                streams := merase st.streams sid,
                targets := mset st.targets sd.target td1 }
              let st2 :=
                if td1.streams.length = 0 then
                  { st1 with targets := merase st1.targets sd.target }
                else st1
              (ok200, st2)

/-! ### /streams/replace (StreamReplaceHandler.put, scv.py:891-938) -/

/-- Handler `StreamReplaceHandler.put`.  Note the source's owner check
(scv.py:924-925) calls `set_status(401)` without returning, so a non-owner
manager falls through: on a STOPPED stream the files are replaced and the
final status is 200. -/
def streamReplacePut (E : ExtFns) (st : SCVState) (tok : Option String)
    (sid : String) (body : Bytes) : Resp × SCVState :=
  match managerGate st tok with
  | none => (err401 "not a manager", st)
  | some _user =>
    match mget st.streams sid with
    | none => (raise500, st)
    | some sd =>
      match streamOwner st sid with
      | none => (raise500, st)
      | some _owner =>
        -- scv.py:924-925: `if owner != user: self.set_status(401)` — no
        -- return; the handler keeps executing and later overwrites the
        -- status, so the comparison has no observable effect.
        if sd.status ≠ "STOPPED" then (err400 "stream must be stopped first", st)
        else
          match E.parseRep body with
          | none => (raise500, st)
          | some rep =>
            match rep.filesField with
            | none => (raise500, st)
            | some files =>
              let dir := dirGet st sid
              match files.find? (fun p => (fmGet dir.files p.1).isNone) with
              | some p =>
                (err400 (String.mk p.1 ++ " is not in files directory"), st)
              | none =>
                let dir1 := { dir with
                  files := files.foldl (fun m p => mset m p.1 p.2) dir.files }
                (ok200, setDir st sid dir1)

/-! ### /streams/download (StreamDownloadHandler.get, scv.py:941-1020) -/

/-- Characters before the first `'_'`: Python `k.split('_')[0]`. -/
def upToUnderscore (n : Name) : Name := n.takeWhile (fun c => decide (c ≠ '_'))

/-- Python `int(s)` on a digit string: `none` (a raised `ValueError`) unless
the string is a non-empty run of decimal digits. -/
def parseNatDigits (s : Name) : Option Nat :=
  if s ≠ [] ∧ s.all Char.isDigit then
    some (s.foldl (fun a c => 10 * a + (c.toNat - 48)) 0)
  else none

/-- Sort key of scv.py:1002: the integer before the first underscore. -/
def frameKey (f : Name) : Option Nat := parseNatDigits (upToUnderscore f)

/-- Insert into a list sorted in ascending key order. -/
def insSorted (key : α → Nat) (x : α) : List α → List α
  | [] => [x]
  | y :: ys => if key x ≤ key y then x :: y :: ys else y :: insSorted key x ys

/-- Ascending sort by a natural-number key (models Python `sorted(key=...)`;
the claims only depend on the output being an ordered permutation). -/
def sortByKey (key : α → Nat) (l : List α) : List α :=
  l.foldr (insSorted key) []

/-- Entries `os.listdir(stream_dir)` returns: the `files` subdirectory plus
every file in the directory root. -/
def listRoot (d : StreamDir) : List Name :=
  nm "files" :: d.root.map Prod.fst

/-- Selection of scv.py:1000-1001: directory entries that contain the
requested filename as a substring and do not contain `buffer_`. -/
def dlSelect (d : StreamDir) (fname : Name) : List Name :=
  (listRoot d).filter (fun f => substrB fname f && !(substrB (nm "buffer_") f))

/-- Keys for the selected entries; `none` when `int()` raises on any of
them (CPython's `sorted` computes all keys before comparing). -/
def dlKeys (sel : List Name) : Option (List (Name × Nat)) :=
  sel.mapM (fun f => (frameKey f).map (fun k => (f, k)))

/-- Concatenation of the sorted entries' bytes (scv.py:1007-1015). -/
def dlConcat (d : StreamDir) (sorted : List (Name × Nat)) : Bytes :=
  sorted.foldl (fun acc f => acc ++ (fmGet d.root f.1).getD []) []

/-- Handler `StreamDownloadHandler.get` (scv.py:941-1020).  The owner check at
scv.py:980-981 sets status 401 without returning, so it never affects the
response.  A filename found under `files/` is served whole; otherwise, when
the stream has committed frames, the substring-selected entries are sorted
by integer prefix and concatenated; otherwise an empty 200. -/
def streamDownloadGet (st : SCVState) (tok : Option String) (sid : String)
    (fname : Name) : Resp × SCVState :=
  match managerGate st tok with
  | none => (err401 "not a manager", st)
  | some _user =>
    -- scv.py:973-978: resolved path must stay inside the stream directory.
    if fname.contains '/' then (bare400, st)
    else
      match mget st.streams sid with
      | none => (raise500, st)
      | some sd =>
        match streamOwner st sid with
        | none => (raise500, st)
        | some _owner =>
          -- scv.py:980-981: `set_status(401)` without return.
          let dir := dirGet st sid
          match fmGet dir.files fname with
          | some content => (⟨200, .raw content⟩, st)
          | none =>
            if 0 < sd.frames then
              match dlKeys (dlSelect dir fname) with
              | none => (raise500, st)
              | some ks =>
                let sorted := sortByKey Prod.snd ks
                (⟨200, .raw (dlConcat dir sorted)⟩, st)
            else (⟨200, .raw []⟩, st)

/-! ### /targets/delete (DeleteTargetHandler.put, scv.py:169-201) -/

/-- Loop of scv.py:187-198: deactivate each stream (`KeyError` is caught
and the loop continues, keeping any partial deactivation), and remove its
directory from disk. -/
def targetDeleteLoop (st : SCVState) : List String → SCVState
  | [] => st
  | sid :: rest =>
    let d := deactivate_stream st sid
    targetDeleteLoop { d.2 with fs := merase d.2.fs sid } rest

/-- Handler `DeleteTargetHandler.put`: 200 immediately when the target record is
missing; otherwise deactivate and erase every stream of the target, then
delete the stream records and the target in one pipeline. -/
def targetDeletePut (st : SCVState) (tid : String) : Resp × SCVState :=
  match mget st.targets tid with
  | none => (ok200, st)
  | some td =>
    let st1 := targetDeleteLoop st td.streams
    let st2 := { st1 with
      streams := td.streams.foldl (fun m sid => merase m sid) st1.streams,
      targets := merase st1.targets tid }
    (ok200, st2)

/-! ### /core/stop (CoreStopHandler.put, scv.py:801-837) -/

/-- Handler `CoreStopHandler.put`: when the body carries an `error`, increment the
stream's `error_count` and append the timestamped decoded message to
`error_log.txt`; then reply 200 and deactivate.  `ts` is the
`time.strftime` text. -/
def coreStopPut (st : SCVState) (tok : Option String) (req : Option StopReq)
    (ts : Bytes) : Resp × SCVState :=
  match tok with
  | none => (err401 "missing Authorization header", st)
  | some t =>
    match lookupToken st.active t with
    | none => (err401 "bad Authorization header", st)
    | some (sid, _a) =>
      match mget st.streams sid with
      | none => (raise500, st)
      | some sd =>
        match req with
        | none => (raise500, st)
        | some r =>
          let st1 :=
            match r.errorField with
            | none => st
            | some msg =>
              let sd1 := { sd with error_count := sd.error_count + 1 }
              let dir := dirGet st sid
              let dir1 := { dir with
                root := fmAppend dir.root (nm "error_log.txt") (ts ++ msg) }
              setDir { st with streams := mset st.streams sid sd1 } sid dir1
          let d := deactivate_stream st1 sid
          if d.1 then (ok200, d.2) else (raise500, d.2)

/-! ### /core/heartbeat (CoreHeartbeatHandler.post, scv.py:1023-1056) -/

/-- Handler `CoreHeartbeatHandler.post`: refresh the stream's heartbeat expiry to
`now + heartbeat_increment`. -/
def coreHeartbeatPost (st : SCVState) (tok : Option String) (now H : Nat) :
    Resp × SCVState :=
  match tok with
  | none => (err401 "missing Authorization header", st)
  | some t =>
    match lookupToken st.active t with
    | none => (err401 "bad Authorization header", st)
    | some (sid, _a) =>
      (ok200, { st with heartbeats := mset st.heartbeats sid (now + H) })

/-! ### Heartbeat reaper (SCV.check_heartbeats, scv.py:1126-1128) -/

/-- Deactivate each expired stream in turn; an uncaught `KeyError` kills
the periodic callback, keeping the deactivations already performed. -/
def reapLoop (st : SCVState) : List String → SCVState
  | [] => st
  | sid :: rest =>
    let d := deactivate_stream st sid
    if d.1 then reapLoop d.2 rest else d.2

/-- Method `SCV.check_heartbeats`: fetch the streams whose expiry is in `[0, now]`
and deactivate them. -/
def checkHeartbeats (st : SCVState) (now : Nat) : SCVState :=
  reapLoop st ((st.heartbeats.filter (fun p => p.2 ≤ now)).map Prod.fst)

/-! ### The operation alphabet of the shard -/

/-- Every state-changing request the server accepts, plus the downloads and
heartbeat tick.  The purely informational GET endpoints (`/`,
`/streams/info`, `/targets/streams`, `/active_streams`, `/core/start`)
issue no writes and are omitted. -/
inductive Op where
  | postStream (tok : Option String) (req : Option PostReq) (sidNew : String)
  | activate (fromCC : Bool) (req : Option ActReq) (token : String) (now : Nat)
  | streamStart (tok : Option String) (sid : String)
  | streamStop (tok : Option String) (sid : String)
  | streamDelete (tok : Option String) (sid : String)
  | targetDelete (tid : String)
  | streamReplace (tok : Option String) (sid : String) (body : Bytes)
  | streamDownload (tok : Option String) (sid : String) (fname : Name)
  | coreFrame (tok : Option String) (body : Bytes)
  | coreCheckpoint (tok : Option String) (body : Bytes)
  | coreStop (tok : Option String) (req : Option StopReq) (ts : Bytes)
  | coreHeartbeat (tok : Option String) (now : Nat)
  | tick (now : Nat)
  deriving DecidableEq, Repr

/-- Dispatch one operation to its handler. -/
def step (E : ExtFns) (op : Op) (st : SCVState) : Resp × SCVState :=
  match op with
  | .postStream tok req sidNew => postStreamPost st tok req sidNew
  | .activate fromCC req token now => activatePost st fromCC req token now E.H
  | .streamStart tok sid => streamStartPut st tok sid
  | .streamStop tok sid => streamStopPut st tok sid
  | .streamDelete tok sid => streamDeletePut st tok sid
  | .targetDelete tid => targetDeletePut st tid
  | .streamReplace tok sid body => streamReplacePut E st tok sid body
  | .streamDownload tok sid fname => streamDownloadGet st tok sid fname
  | .coreFrame tok body => coreFramePut E st tok body
  | .coreCheckpoint tok body => coreCheckpointPut E st tok body
  | .coreStop tok req ts => coreStopPut st tok req ts
  | .coreHeartbeat tok now => coreHeartbeatPost st tok now E.H
  | .tick now => (ok200, checkHeartbeats st now)

/-! ### Concrete fixtures used by witnesses and counterexamples -/

/-- External functions for concrete runs: constant MD5, fixed parses. -/
def exampleExt : ExtFns :=
  { md5 := fun _ => "h1",
    parseFrame := fun _ => some ⟨some 1, some [(nm "frames.xtc", [7, 8])]⟩,
    parseCk := fun _ => some ⟨some [(nm "state.x", [9])]⟩,
    parseRep := fun _ => some ⟨some [(nm "state.x", [2])]⟩,
    b64 := id, gunzip := id, H := 900 }

/-- A shard holding one active stream `s1` of target `t1` owned by manager
`alice` (token `mtok`), with one checkpoint file and a live heartbeat. -/
def exActiveState : SCVState :=
  { streams := [("s1", ⟨"t1", 0, "OK", 0⟩)],
    active := [("s1", ⟨0, 0, "ctok", none, 0, 0, none, []⟩)],
    targets := [("t1", ⟨[], ["s1"]⟩)],
    heartbeats := [("s1", 100)],
    fs := [("s1", ⟨[(nm "state.x", [1])], []⟩)],
    managers := [("mtok", "alice")],
    targetOwners := [("t1", "alice")] }

/-- The same shard with `s1` inactive and STOPPED. -/
def exStoppedState : SCVState :=
  { streams := [("s1", ⟨"t1", 0, "STOPPED", 0⟩)],
    active := [],
    targets := [("t1", ⟨[], ["s1"]⟩)],
    heartbeats := [],
    fs := [("s1", ⟨[(nm "state.x", [1])], []⟩)],
    managers := [("mtok", "alice")],
    targetOwners := [("t1", "alice")] }

/-- The stopped shard as seen by manager `bob` (token `tb`), who does not
own target `t1`. -/
def exForeignManagerState : SCVState :=
  { exStoppedState with managers := [("tb", "bob")] }

/-- A shard where stream `s1` has one committed frame file `1_log.txt` and
an `error_log.txt` left by a core error report. -/
def exErrorLogState : SCVState :=
  { streams := [("s1", ⟨"t1", 1, "OK", 0⟩)],
    active := [],
    targets := [("t1", ⟨[], ["s1"]⟩)],
    heartbeats := [],
    fs := [("s1", ⟨[(nm "state.x", [1])],
                   [(nm "error_log.txt", [5]), (nm "1_log.txt", [6, 7])]⟩)],
    managers := [("mtok", "alice")],
    targetOwners := [("t1", "alice")] }

/-- C5: `StreamDeleteHandler.put` (scv.py:514-535) destroys the
`ActiveStream` of an active stream without removing its `heartbeats` entry,
so the invariant "`heartbeats` contains an entry for `stream_id` iff that
stream is active" is broken by the stream-delete path: after a successful
200 delete of the active stream `s1`, no `ActiveStream` exists but the
heartbeat entry is still present. -/
theorem c5_streamDelete_leaves_heartbeat :
    (streamDeletePut exActiveState (some "mtok") "s1").1.status = 200 ∧
    mget (streamDeletePut exActiveState (some "mtok") "s1").2.active "s1"
      = none ∧
    mget (streamDeletePut exActiveState (some "mtok") "s1").2.heartbeats "s1"
      = some 100 := by decide

/-- C6: the owner check of `StreamReplaceHandler.put` (scv.py:924-925) sets
status 401 without returning, so manager `bob`, who does not own stream
`s1`'s target, still replaces the stream's files: the response is 200 and
`files/state.x` now holds bob's bytes, where the claim demands a 401 with
no state change. -/
theorem c6_nonowner_replace_succeeds :
    (streamReplacePut exampleExt exForeignManagerState (some "tb") "s1"
        [0]).1.status = 200 ∧
    fmGet (dirGet (streamReplacePut exampleExt exForeignManagerState
        (some "tb") "s1" [0]).2 "s1").files (nm "state.x") = some [2] := by
  decide

/-- C8 (counterexample): `StreamStopHandler.put` (scv.py:475-489) on an
existing stream that is already STOPPED, requested by the owning manager,
replies 200 with an empty body — not the 400 error the claim states. -/
theorem c8_stop_stopped_returns_200 :
    (streamStopPut exStoppedState (some "mtok") "s1").1 = ok200 := by decide

/-- C8 (as amended): stopping an existing, inactive, already-STOPPED stream
as the owning manager succeeds idempotently — the handler replies 200 and
the state is unchanged (no 400 error is produced). -/
theorem c8_stop_stopped_idempotent (st : SCVState) (tok user sid : String)
    (sd : StreamData) (td : TargetData)
    (hm : mget st.managers tok = some user)
    (hs : mget st.streams sid = some sd)
    (ho : mget st.targetOwners sd.target = some user)
    (ht : mget st.targets sd.target = some td)
    (hst : sd.status = "STOPPED")
    (ha : mget st.active sid = none) :
    streamStopPut st (some tok) sid = (ok200, st) := by
  simp only [streamStopPut, managerGate, currentUser, hm, streamOwner, hs,
    ho, deactivate_stream, ha, ht, hst, Option.isNone_some, Bool.false_eq_true,
    if_false, ne_eq, not_true_eq_false, if_true, not_false_eq_true]

/-- Witness for C8's amended theorem at the concrete stopped shard. -/
theorem c8_stop_stopped_idempotent_witness :
    (mget exStoppedState.managers "mtok" = some "alice" ∧
     mget exStoppedState.streams "s1" = some ⟨"t1", 0, "STOPPED", 0⟩ ∧
     mget exStoppedState.targetOwners "t1" = some "alice" ∧
     mget exStoppedState.targets "t1" = some ⟨[], ["s1"]⟩ ∧
     mget exStoppedState.active "s1" = none) ∧
    streamStopPut exStoppedState (some "mtok") "s1" = (ok200, exStoppedState) :=
  ⟨by decide,
   c8_stop_stopped_idempotent exStoppedState "mtok" "alice" "s1"
     ⟨"t1", 0, "STOPPED", 0⟩ ⟨[], ["s1"]⟩ (by decide) (by decide) (by decide)
     (by decide) (by decide) (by decide)⟩

/-- C4: `ActivateStreamHandler.post` (scv.py:308-333) on a target whose
queue is non-empty pops a maximal-score entry, creates an `ActiveStream`
holding the freshly minted token, inserts a heartbeat entry expiring at
`now + H`, and replies 200 with the token; on an empty queue it replies 400
with an error body and creates no `ActiveStream` (the state is unchanged).
The queue pop is `zrevpop`, modelled from the spec because
`server/apollo.py` is not under `src/`. -/
theorem c4_activate_pops_max (st : SCVState) (r : ActReq) (td : TargetData)
    (token : String) (now H : Nat)
    (ht : mget st.targets r.target_id = some td) :
    (∀ p rest, popMax td.queue = some (p, rest) →
      mget st.active p.1 = none →
      (activatePost st true (some r) token now H).1 = ⟨200, .token token⟩ ∧
      mget (activatePost st true (some r) token now H).2.active p.1 =
        some ⟨0, 0, token, r.donor_id, 0, now, none, []⟩ ∧
      mget (activatePost st true (some r) token now H).2.heartbeats p.1 =
        some (now + H) ∧
      mget (activatePost st true (some r) token now H).2.targets r.target_id =
        some { td with queue := rest } ∧
      (∀ x ∈ td.queue, x.2 ≤ p.2)) ∧
    (td.queue = [] →
      activatePost st true (some r) token now H =
        (err400 "no streams available", st)) := by
  constructor
  · intro p rest hpop hact
    simp only [activatePost, not_true_eq_false, if_false, ht, hpop, hact,
      setActive]
    exact ⟨trivial, mget_mset_self _ _ _, mget_mset_self _ _ _,
      mget_mset_self _ _ _, popMax_score_ge hpop⟩
  · intro hq
    simp [activatePost, ht, hq, popMax]

/-- A shard with two enqueued inactive streams of target `t1`: `s1` at
score 0 and `s2` at score 3. -/
def exQueueState : SCVState :=
  { streams := [("s1", ⟨"t1", 0, "OK", 0⟩), ("s2", ⟨"t1", 3, "OK", 0⟩)],
    active := [],
    targets := [("t1", ⟨[("s1", 0), ("s2", 3)], ["s1", "s2"]⟩)],
    heartbeats := [],
    fs := [],
    managers := [("mtok", "alice")],
    targetOwners := [("t1", "alice")] }

/-- Witness for C4 at the two-stream queue: activation pops `s2` (score 3,
the maximum), stores the minted token, inserts the heartbeat at 50 + 900. -/
theorem c4_activate_pops_max_witness :
    (mget exQueueState.targets "t1" = some ⟨[("s1", 0), ("s2", 3)], ["s1", "s2"]⟩ ∧
     popMax [("s1", 0), ("s2", 3)] = some (("s2", 3), [("s1", 0)]) ∧
     mget exQueueState.active "s2" = none) ∧
    ((activatePost exQueueState true (some ⟨"t1", none⟩) "tokN" 50 900).1 =
        ⟨200, .token "tokN"⟩ ∧
     mget (activatePost exQueueState true (some ⟨"t1", none⟩) "tokN" 50
        900).2.active "s2" = some ⟨0, 0, "tokN", none, 0, 50, none, []⟩ ∧
     mget (activatePost exQueueState true (some ⟨"t1", none⟩) "tokN" 50
        900).2.heartbeats "s2" = some 950 ∧
     mget (activatePost exQueueState true (some ⟨"t1", none⟩) "tokN" 50
        900).2.targets "t1" = some ⟨[("s1", 0)], ["s1", "s2"]⟩ ∧
     (∀ x ∈ [("s1", 0), ("s2", 3)], x.2 ≤ 3)) :=
  ⟨⟨by decide, by decide, by decide⟩,
   (c4_activate_pops_max exQueueState ⟨"t1", none⟩
      ⟨[("s1", 0), ("s2", 3)], ["s1", "s2"]⟩ "tokN" 50 900 (by decide)).1
     ("s2", 3) [("s1", 0)] (by decide) (by decide)⟩

/-! ### Frame-replay lemmas (shared by the /core/frame claims) -/

theorem lookupToken_auth {A : List (String × ActiveStreamData)} {tok : String}
    {pa : String × ActiveStreamData} (h : lookupToken A tok = some pa) :
    pa.2.auth_token = tok := by
  induction A with
  | nil => simp [lookupToken] at h
  | cons q rest ih =>
    by_cases hq : q.2.auth_token = tok
    · simp only [lookupToken, if_pos hq] at h
      cases h
      exact hq
    · simp only [lookupToken, if_neg hq] at h
      exact ih h

theorem lookupToken_mset_head {A : List (String × ActiveStreamData)}
    {sid tok : String} {a : ActiveStreamData} (h : a.auth_token = tok) :
    lookupToken (mset A sid a) tok = some (sid, a) := by
  simp [mset, lookupToken, h]

theorem frameLoop_preserves (E : ExtFns) (sid : String)
    (l : List (Name × Bytes)) (st : SCVState) (a : ActiveStreamData) :
    ((frameLoop E sid (st, a) l).2).auth_token = a.auth_token ∧
    ((frameLoop E sid (st, a) l).2).frame_hash = a.frame_hash ∧
    ((frameLoop E sid (st, a) l).2).buffer_frames = a.buffer_frames := by
  induction l generalizing st a with
  | nil => exact ⟨rfl, rfl, rfl⟩
  | cons p rest ih =>
    simpa [frameLoop] using ih _ _

/-- After any authenticated `/core/frame` request — replayed, failed or
successful — the active stream's `frame_hash` is the MD5 of that body and
the auth token still resolves. -/
theorem coreFramePut_after (E : ExtFns) (st : SCVState) (tok sid : String)
    (a : ActiveStreamData) (body : Bytes)
    (h : lookupToken st.active tok = some (sid, a)) :
    ∃ a2, lookupToken ((coreFramePut E st (some tok) body).2).active tok =
        some (sid, a2) ∧ a2.frame_hash = some (E.md5 body) := by
  have htok : a.auth_token = tok := lookupToken_auth h
  by_cases hrepl : a.frame_hash = some (E.md5 body)
  · refine ⟨a, ?_, hrepl⟩
    simp only [coreFramePut, h, if_pos hrepl]
  · simp only [coreFramePut, h, if_neg hrepl]
    cases hp : E.parseFrame body with
    | none =>
      exact ⟨_, lookupToken_mset_head htok, rfl⟩
    | some req =>
      by_cases hfc : req.framesField.isSome ∧ (req.framesField.getD 1) < 1
      · simp only [if_pos hfc]
        exact ⟨_, lookupToken_mset_head htok, rfl⟩
      · simp only [if_neg hfc]
        cases hf : req.filesField with
        | none =>
          exact ⟨_, lookupToken_mset_head htok, rfl⟩
        | some files =>
          dsimp only
          refine ⟨_, lookupToken_mset_head ?_, ?_⟩
          · exact (frameLoop_preserves E sid files _ _).1.trans htok
          · exact (frameLoop_preserves E sid files _ _).2.1

/-- C2: `/core/frame` is idempotent per body (scv.py:657-693).  If the MD5
of the raw body equals the stored `frame_hash`, the handler replies 200 and
the state — `buffer_frames`, buffer files and everything else — is exactly
unchanged; consequently a second byte-identical request right after any
first one replies 200 and leaves the whole state byte-identical to the
state after the first request. -/
theorem c2_frame_replay_idempotent (E : ExtFns) (st : SCVState)
    (tok sid : String) (a : ActiveStreamData) (body : Bytes)
    (h : lookupToken st.active tok = some (sid, a)) :
    (a.frame_hash = some (E.md5 body) →
      coreFramePut E st (some tok) body = (ok200, st)) ∧
    coreFramePut E (coreFramePut E st (some tok) body).2 (some tok) body =
      (ok200, (coreFramePut E st (some tok) body).2) := by
  constructor
  · intro hrepl
    simp [coreFramePut, h, hrepl]
  · obtain ⟨a2, h2, hh2⟩ := coreFramePut_after E st tok sid a body h
    generalize hst1 : (coreFramePut E st (some tok) body).2 = st1 at h2 ⊢
    simp [coreFramePut, h2, hh2]

/-- Witness for C2 at the concrete one-stream shard. -/
theorem c2_frame_replay_idempotent_witness :
    (lookupToken exActiveState.active "ctok" =
      some ("s1", ⟨0, 0, "ctok", none, 0, 0, none, []⟩)) ∧
    coreFramePut exampleExt
        (coreFramePut exampleExt exActiveState (some "ctok") [0, 1]).2
        (some "ctok") [0, 1] =
      (ok200, (coreFramePut exampleExt exActiveState (some "ctok") [0, 1]).2) :=
  ⟨by decide,
   (c2_frame_replay_idempotent exampleExt exActiveState "ctok" "s1"
      ⟨0, 0, "ctok", none, 0, 0, none, []⟩ [0, 1] (by decide)).2⟩

/-- C10: `/core/frame` (scv.py:657-671) stores the body's MD5 into
`frame_hash` before parsing or validating.  When the hash is new and the
request then fails — the JSON parse raises (500) or `frames < 1` (400
with an error body) — the only state change is the `frame_hash` update (no
buffer data is written), and an immediately repeated byte-identical request
is treated as a replay: it returns 200 with no side effects, silently
dropping the rejected frame data. -/
theorem c10_failed_frame_poisons_replay (E : ExtFns) (st : SCVState)
    (tok sid : String) (a : ActiveStreamData) (body : Bytes)
    (h : lookupToken st.active tok = some (sid, a))
    (hrepl : a.frame_hash ≠ some (E.md5 body)) :
    (E.parseFrame body = none →
      coreFramePut E st (some tok) body =
        (raise500, setActive st sid { a with frame_hash := some (E.md5 body) })) ∧
    (∀ req k, E.parseFrame body = some req → req.framesField = some k →
      k < 1 →
      coreFramePut E st (some tok) body =
        (err400 "frames < 1",
         setActive st sid { a with frame_hash := some (E.md5 body) })) ∧
    coreFramePut E
        (setActive st sid { a with frame_hash := some (E.md5 body) })
        (some tok) body =
      (ok200, setActive st sid { a with frame_hash := some (E.md5 body) }) := by
  have htok : a.auth_token = tok := lookupToken_auth h
  refine ⟨?_, ?_, ?_⟩
  · intro hp
    simp [coreFramePut, h, hrepl, hp]
  · intro req k hp hk hlt
    simp [coreFramePut, h, hrepl, hp, hk, hlt]
  · have hhead : lookupToken
        (setActive st sid { a with frame_hash := some (E.md5 body) }).active
        tok = some (sid, { a with frame_hash := some (E.md5 body) }) :=
      lookupToken_mset_head htok
    simp [coreFramePut, hhead]

/-- External functions whose frame parse yields `frames = 0 < 1`. -/
def exExtBadFrames : ExtFns :=
  { exampleExt with
    parseFrame := fun _ => some ⟨some 0, some [(nm "frames.xtc", [7, 8])]⟩ }

/-- Witness for C10: on the concrete shard, the `frames = 0` body is
rejected with 400 after storing the hash, and the identical retry replies
200 leaving the state unchanged. -/
theorem c10_failed_frame_poisons_replay_witness :
    (lookupToken exActiveState.active "ctok" =
       some ("s1", ⟨0, 0, "ctok", none, 0, 0, none, []⟩) ∧
     (⟨0, 0, "ctok", none, 0, 0, none, []⟩ : ActiveStreamData).frame_hash ≠
       some (exExtBadFrames.md5 [0, 1]) ∧
     exExtBadFrames.parseFrame [0, 1] =
       some ⟨some 0, some [(nm "frames.xtc", [7, 8])]⟩ ∧ (0 : Int) < 1) ∧
    coreFramePut exExtBadFrames exActiveState (some "ctok") [0, 1] =
      (err400 "frames < 1",
       setActive exActiveState "s1" ⟨0, 0, "ctok", none, 0, 0, some "h1", []⟩) :=
  ⟨⟨by decide, by decide, by decide, by decide⟩,
   (c10_failed_frame_poisons_replay exExtBadFrames exActiveState "ctok" "s1"
      ⟨0, 0, "ctok", none, 0, 0, none, []⟩ [0, 1] (by decide)
      (by decide)).2.1 ⟨some 0, some [(nm "frames.xtc", [7, 8])]⟩ 0
     (by decide) (by decide) (by decide)⟩

/-! ### Checkpoint idempotency lemmas -/

theorem checkpoint_zero_buffer (E : ExtFns) (st : SCVState) (tok sid : String)
    (a : ActiveStreamData) (sd : StreamData) (req : CkReq) (body : Bytes)
    (h : lookupToken st.active tok = some (sid, a))
    (hp : E.parseCk body = some req)
    (hs : mget st.streams sid = some sd)
    (hB : a.buffer_frames = 0) :
    coreCheckpointPut E st (some tok) body = (ok200, st) := by
  simp [coreCheckpointPut, h, hp, hs, hB]

/-- After a 200 from `/core/checkpoint`, the token still resolves to the
stream, its `buffer_frames` is 0, and the `Stream` record still exists. -/
theorem checkpoint_200_state (E : ExtFns) (st : SCVState) (tok sid : String)
    (a : ActiveStreamData) (sd : StreamData) (req : CkReq) (body : Bytes)
    (h : lookupToken st.active tok = some (sid, a))
    (hp : E.parseCk body = some req)
    (hs : mget st.streams sid = some sd)
    (h200 : (coreCheckpointPut E st (some tok) body).1.status = 200) :
    ∃ a' sd',
      lookupToken ((coreCheckpointPut E st (some tok) body).2).active tok =
        some (sid, a') ∧
      a'.buffer_frames = 0 ∧
      mget ((coreCheckpointPut E st (some tok) body).2).streams sid =
        some sd' := by
  have htok : a.auth_token = tok := lookupToken_auth h
  by_cases hB : a.buffer_frames = 0
  · rw [checkpoint_zero_buffer E st tok sid a sd req body h hp hs hB]
    exact ⟨a, sd, h, hB, hs⟩
  · revert h200
    simp only [coreCheckpointPut, h, hp, hs, if_neg hB]
    cases hf : req.filesField with
    | none =>
      intro h200
      simp [raise500] at h200
    | some ck =>
      by_cases hrun : (applyOps (dirGet st sid)
          (ckptOps ck a.buffer_files sd.frames
            (sd.frames + a.buffer_frames))).1 = true
      · simp only [hrun, if_true, if_pos]
        intro _
        exact ⟨_, _, lookupToken_mset_head htok, rfl, mget_mset_self _ _ _⟩
      · simp only [Bool.not_eq_true] at hrun
        simp only [hrun, Bool.false_eq_true, if_false]
        intro h200
        simp [raise500] at h200

/-- C3: `/core/checkpoint` is idempotent (scv.py:754-798).  When the active
stream's `buffer_frames` is 0 the handler replies 200 immediately leaving
redis and disk byte-identical; consequently, after any first checkpoint
request that replied 200, repeating the identical request replies 200 and
leaves `Stream.frames` and every file byte-identical to the state after
the first request. -/
theorem c3_checkpoint_idempotent (E : ExtFns) (st : SCVState)
    (tok sid : String) (a : ActiveStreamData) (sd : StreamData) (req : CkReq)
    (body : Bytes)
    (h : lookupToken st.active tok = some (sid, a))
    (hp : E.parseCk body = some req)
    (hs : mget st.streams sid = some sd) :
    (a.buffer_frames = 0 →
      coreCheckpointPut E st (some tok) body = (ok200, st)) ∧
    ((coreCheckpointPut E st (some tok) body).1.status = 200 →
      coreCheckpointPut E (coreCheckpointPut E st (some tok) body).2
          (some tok) body =
        (ok200, (coreCheckpointPut E st (some tok) body).2)) := by
  refine ⟨fun hB => checkpoint_zero_buffer E st tok sid a sd req body h hp hs hB,
    fun h200 => ?_⟩
  obtain ⟨a', sd', h', hB', hs'⟩ :=
    checkpoint_200_state E st tok sid a sd req body h hp hs h200
  exact checkpoint_zero_buffer E _ tok sid a' sd' req body h' hp hs' hB'

/-- Witness for C3: a concrete committed checkpoint (buffer of one frame)
followed by the identical request, which is absorbed. -/
theorem c3_checkpoint_idempotent_witness :
    (lookupToken (coreFramePut exampleExt exActiveState (some "ctok")
        [0, 1]).2.active "ctok" =
      some ("s1", ⟨0, 1, "ctok", none, 0, 0, some "h1", [nm "frames.xtc"]⟩) ∧
     exampleExt.parseCk [2] = some ⟨some [(nm "state.x", [9])]⟩ ∧
     mget (coreFramePut exampleExt exActiveState (some "ctok")
        [0, 1]).2.streams "s1" = some ⟨"t1", 0, "OK", 0⟩ ∧
     (coreCheckpointPut exampleExt (coreFramePut exampleExt exActiveState
        (some "ctok") [0, 1]).2 (some "ctok") [2]).1.status = 200) ∧
    coreCheckpointPut exampleExt
        (coreCheckpointPut exampleExt (coreFramePut exampleExt exActiveState
          (some "ctok") [0, 1]).2 (some "ctok") [2]).2 (some "ctok") [2] =
      (ok200,
       (coreCheckpointPut exampleExt (coreFramePut exampleExt exActiveState
         (some "ctok") [0, 1]).2 (some "ctok") [2]).2) :=
  ⟨⟨by decide, by decide, by decide, by decide⟩,
   (c3_checkpoint_idempotent exampleExt
      (coreFramePut exampleExt exActiveState (some "ctok") [0, 1]).2 "ctok"
      "s1" ⟨0, 1, "ctok", none, 0, 0, some "h1", [nm "frames.xtc"]⟩
      ⟨"t1", 0, "OK", 0⟩ ⟨some [(nm "state.x", [9])]⟩ [2] (by decide)
      (by decide) (by decide)).2 (by decide)⟩

/-! ### Checkpoint-commit phase lemmas (for the /core/checkpoint claim) -/

theorem mem_mset [DecidableEq α] {m : List (α × β)} {k : α} {v : β}
    {q : α × β} (h : q ∈ mset m k v) : q.1 = k ∨ q ∈ m := by
  rcases List.mem_cons.mp h with h | h
  · subst h
    exact Or.inl rfl
  · exact Or.inr (mem_merase h).1

theorem renamePhase_mem (g : Name → Name) (ps : List (Name × Bytes)) :
    ∀ d : StreamDir,
    (∀ q ∈ (applyOps d (ps.map (fun p => FsOp.renameFiles p.1 (g p.1)))).2.files,
        (∃ p ∈ ps, q.1 = g p.1) ∨ q ∈ d.files) ∧
    (applyOps d (ps.map (fun p => FsOp.renameFiles p.1 (g p.1)))).2.root =
      d.root := by
  induction ps with
  | nil =>
    intro d
    exact ⟨fun q hq => Or.inr hq, rfl⟩
  | cons p rest ih =>
    intro d
    simp only [List.map_cons, applyOps, applyOp]
    cases hv : fmGet d.files p.1 with
    | none =>
      simp only [fmRename, hv, Option.map_none']
      exact ⟨fun q hq => Or.inr hq, trivial⟩
    | some v =>
      simp only [fmRename, hv, Option.map_some']
      have hrec := ih { d with files := mset (merase d.files p.1) (g p.1) v }
      refine ⟨fun q hq => ?_, hrec.2⟩
      rcases hrec.1 q hq with ⟨p', hp', he⟩ | hq'
      · exact Or.inl ⟨p', List.mem_cons_of_mem _ hp', he⟩
      · rcases mem_mset hq' with he | hq''
        · exact Or.inl ⟨p, List.mem_cons_self _ _, he⟩
        · exact Or.inr (mem_merase hq'').1

theorem renameRootPhase_files (f g : Name → Name) (ns : List Name) :
    ∀ d : StreamDir,
    (applyOps d (ns.map (fun n => FsOp.renameRoot (f n) (g n)))).2.files =
      d.files := by
  induction ns with
  | nil => intro d; rfl
  | cons n rest ih =>
    intro d
    simp only [List.map_cons, applyOps, applyOp]
    cases hv : fmGet d.root (f n) with
    | none => simp [fmRename, hv]
    | some v =>
      simp only [fmRename, hv, Option.map_some']
      exact ih _

theorem writePhase_mem (ps : List (Name × Bytes)) :
    ∀ d : StreamDir,
    (∀ q ∈ (applyOps d (ps.map (fun p => FsOp.writeFiles p.1 p.2))).2.files,
        (∃ p ∈ ps, q.1 = p.1) ∨ q ∈ d.files) := by
  induction ps with
  | nil => exact fun d q hq => Or.inr hq
  | cons p rest ih =>
    intro d q hq
    simp only [List.map_cons, applyOps, applyOp] at hq
    rcases ih { d with files := mset d.files p.1 p.2 } q hq with ⟨p', hp', he⟩ | hq'
    · exact Or.inl ⟨p', List.mem_cons_of_mem _ hp', he⟩
    · rcases mem_mset hq' with he | hq''
      · exact Or.inl ⟨p, List.mem_cons_self _ _, he⟩
      · exact Or.inr hq''

theorem removePhase_mem (g : Name → Name) (ps : List (Name × Bytes)) :
    ∀ d : StreamDir,
    (applyOps d (ps.map (fun p => FsOp.removeFiles (g p.1)))).1 = true →
    ∀ q ∈ (applyOps d (ps.map (fun p => FsOp.removeFiles (g p.1)))).2.files,
      q ∈ d.files ∧ ∀ p ∈ ps, q.1 ≠ g p.1 := by
  induction ps with
  | nil =>
    intro d _ q hq
    exact ⟨hq, fun p hp => absurd hp (List.not_mem_nil p)⟩
  | cons p rest ih =>
    intro d hok q hq
    simp only [List.map_cons, applyOps, applyOp] at hok hq
    cases hv : fmGet d.files (g p.1) with
    | none =>
      simp [fmRemove, hv] at hok
    | some v =>
      simp only [fmRemove, hv, Option.map_some'] at hok hq
      have hrec := ih { d with files := merase d.files (g p.1) } hok q hq
      refine ⟨(mem_merase hrec.1).1, fun p' hp' => ?_⟩
      rcases List.mem_cons.mp hp' with he | hp''
      · subst he
        exact (mem_merase hrec.1).2
      · exact hrec.2 p' hp''

theorem ne_chkptName_of_clean {n : Name} (h : hasChkptPre n = false)
    (P : Nat) (m : Name) : n ≠ chkptName P m := by
  intro he
  rw [he, hasChkptPre_chkptName] at h
  cases h

/-- Running the four checkpoint phases to completion leaves no file with
the `chkpt_` sentinel prefix in `files/`, provided neither the incoming
checkpoint names nor the initial `files/` contents carry it. -/
theorem ckptOps_chkptFree (ck : List (Name × Bytes)) (bufs : List Name)
    (P T : Nat) (d d4 : StreamDir)
    (hrun : applyOps d (ckptOps ck bufs P T) = (true, d4))
    (hck : ∀ p ∈ ck, hasChkptPre p.1 = false)
    (hclean : ∀ q ∈ d.files, hasChkptPre q.1 = false) :
    ∀ q ∈ d4.files, hasChkptPre q.1 = false := by
  rw [ckptOps, List.append_assoc, List.append_assoc] at hrun
  rw [applyOps_append] at hrun
  rcases hA : applyOps d
      (ck.map (fun p => FsOp.renameFiles p.1 (chkptName P p.1))) with ⟨bA, d1⟩
  rw [hA] at hrun
  cases bA with
  | false => simp at hrun
  | true =>
    dsimp only at hrun
    rw [applyOps_append] at hrun
    rcases hBp : applyOps d1
        (bufs.map (fun n =>
          FsOp.renameRoot (nm "buffer_" ++ n) (frameName T n))) with ⟨bB, d2⟩
    rw [hBp] at hrun
    cases bB with
    | false => simp at hrun
    | true =>
      dsimp only at hrun
      rw [applyOps_append] at hrun
      rcases hC : applyOps d2
          (ck.map (fun p => FsOp.writeFiles p.1 p.2)) with ⟨bC, d3⟩
      rw [hC] at hrun
      cases bC with
      | false => simp at hrun
      | true =>
        dsimp only at hrun
        intro q hq
        have hD := removePhase_mem (chkptName P) ck d3
        rw [hrun] at hD
        have hq3 := hD rfl q hq
        have hw := writePhase_mem ck d2
        rw [hC] at hw
        have hB2 := renameRootPhase_files (fun n => nm "buffer_" ++ n)
          (frameName T) bufs d1
        rw [hBp] at hB2
        have hA2 := renamePhase_mem (chkptName P) ck d
        rw [hA] at hA2
        rcases hw q hq3.1 with ⟨p, hp, he⟩ | hq2
        · rw [he]
          exact hck p hp
        · rw [hB2] at hq2
          rcases hA2.1 q hq2 with ⟨p, hp, he⟩ | hq0
          · exact absurd he (hq3.2 p hp)
          · exact hclean q hq0

/-- C1: a successful `/core/checkpoint` on an active stream with
`buffer_frames = B > 0` and pre-commit `frames = P` (scv.py:754-798)
replies 200; the on-disk directory afterwards is exactly the result of
executing, in order, (1) the renames `files/<name> → files/chkpt_<P>_<name>`,
(2) the renames `buffer_<name> → <P+B>_<name>`, (3) the writes of the new
checkpoint bytes to `files/<name>`, and (4) the removals of
`files/chkpt_<P>_<name>` — the `ckptOps` trace run by `applyOps`; and
afterwards `frames` and `total_frames` have grown by `B`, `buffer_frames`
is 0, and no `chkpt_*` file remains in `files/`. -/
theorem c1_checkpoint_commit (E : ExtFns) (st : SCVState) (tok sid : String)
    (a : ActiveStreamData) (sd : StreamData) (req : CkReq)
    (ck : List (Name × Bytes)) (body : Bytes) (d4 : StreamDir)
    (h : lookupToken st.active tok = some (sid, a))
    (hp : E.parseCk body = some req)
    (hs : mget st.streams sid = some sd)
    (hB : a.buffer_frames ≠ 0)
    (hf : req.filesField = some ck)
    (hrun : applyOps (dirGet st sid)
      (ckptOps ck a.buffer_files sd.frames (sd.frames + a.buffer_frames)) =
        (true, d4))
    (hck : ∀ p ∈ ck, hasChkptPre p.1 = false)
    (hclean : ∀ q ∈ (dirGet st sid).files, hasChkptPre q.1 = false) :
    (coreCheckpointPut E st (some tok) body).1 = ok200 ∧
    dirGet (coreCheckpointPut E st (some tok) body).2 sid = d4 ∧
    (mget (coreCheckpointPut E st (some tok) body).2.streams sid).map
        (fun s => s.frames) = some (sd.frames + a.buffer_frames) ∧
    (mget (coreCheckpointPut E st (some tok) body).2.active sid).map
        (fun x => x.total_frames) = some (a.total_frames + a.buffer_frames) ∧
    (mget (coreCheckpointPut E st (some tok) body).2.active sid).map
        (fun x => x.buffer_frames) = some 0 ∧
    (∀ q ∈ d4.files, hasChkptPre q.1 = false) := by
  have hfree := ckptOps_chkptFree ck a.buffer_files sd.frames
    (sd.frames + a.buffer_frames) (dirGet st sid) d4 hrun hck hclean
  simp only [coreCheckpointPut, h, hp, hs, if_neg hB, hf, hrun, if_true,
    setActive, setDir]
  refine ⟨trivial, ?_, ?_, ?_, ?_, hfree⟩
  · simp [dirGet, mget_mset_self]
  · simp [mget_mset_self]
  · simp [mget_mset_self]
  · simp [mget_mset_self]

/-- Witness for C1 at a concrete commit: one buffered frame, one checkpoint
file; the handler replies 200, disk holds `1_frames.xtc` and the new
`state.x`, no sentinel remains, and the counters commit. -/
theorem c1_checkpoint_commit_witness :
    (lookupToken (coreFramePut exampleExt exActiveState (some "ctok")
        [0, 1]).2.active "ctok" =
      some ("s1", ⟨0, 1, "ctok", none, 0, 0, some "h1", [nm "frames.xtc"]⟩) ∧
     exampleExt.parseCk [2] = some ⟨some [(nm "state.x", [9])]⟩ ∧
     mget (coreFramePut exampleExt exActiveState (some "ctok")
        [0, 1]).2.streams "s1" = some ⟨"t1", 0, "OK", 0⟩ ∧
     (1 : Nat) ≠ 0 ∧
     applyOps (dirGet (coreFramePut exampleExt exActiveState (some "ctok")
          [0, 1]).2 "s1")
        (ckptOps [(nm "state.x", [9])] [nm "frames.xtc"] 0 1) =
       (true, ⟨[(nm "state.x", [9])], [(nm "1_frames.xtc", [7, 8])]⟩)) ∧
    ((coreCheckpointPut exampleExt (coreFramePut exampleExt exActiveState
        (some "ctok") [0, 1]).2 (some "ctok") [2]).1 = ok200 ∧
     dirGet (coreCheckpointPut exampleExt (coreFramePut exampleExt
        exActiveState (some "ctok") [0, 1]).2 (some "ctok") [2]).2 "s1" =
       ⟨[(nm "state.x", [9])], [(nm "1_frames.xtc", [7, 8])]⟩ ∧
     (mget (coreCheckpointPut exampleExt (coreFramePut exampleExt
        exActiveState (some "ctok") [0, 1]).2 (some "ctok") [2]).2.streams
        "s1").map (fun s => s.frames) = some 1 ∧
     (mget (coreCheckpointPut exampleExt (coreFramePut exampleExt
        exActiveState (some "ctok") [0, 1]).2 (some "ctok") [2]).2.active
        "s1").map (fun x => x.total_frames) = some 1 ∧
     (mget (coreCheckpointPut exampleExt (coreFramePut exampleExt
        exActiveState (some "ctok") [0, 1]).2 (some "ctok") [2]).2.active
        "s1").map (fun x => x.buffer_frames) = some 0 ∧
     (∀ q ∈ ([(nm "state.x", [9])] : List (Name × Bytes)),
        hasChkptPre q.1 = false)) :=
  ⟨⟨by decide, by decide, by decide, by decide, by decide⟩,
   c1_checkpoint_commit exampleExt
     (coreFramePut exampleExt exActiveState (some "ctok") [0, 1]).2 "ctok"
     "s1" ⟨0, 1, "ctok", none, 0, 0, some "h1", [nm "frames.xtc"]⟩
     ⟨"t1", 0, "OK", 0⟩ ⟨some [(nm "state.x", [9])]⟩ [(nm "state.x", [9])]
     [2] ⟨[(nm "state.x", [9])], [(nm "1_frames.xtc", [7, 8])]⟩ (by decide)
     (by decide) (by decide) (by decide) (by decide) (by decide) (by decide)
     (by decide)⟩

/-! ### Sorting lemmas for the download claim -/

theorem insSorted_perm (key : α → Nat) (x : α) (l : List α) :
    List.Perm (insSorted key x l) (x :: l) := by
  induction l with
  | nil => exact List.Perm.refl _
  | cons y ys ih =>
    by_cases h : key x ≤ key y
    · simp [insSorted, h]
    · simp only [insSorted, if_neg h]
      exact (ih.cons y).trans (List.Perm.swap x y ys)

theorem insSorted_pairwise (key : α → Nat) (x : α) (l : List α)
    (h : l.Pairwise (fun a b => key a ≤ key b)) :
    (insSorted key x l).Pairwise (fun a b => key a ≤ key b) := by
  induction l with
  | nil => simp [insSorted]
  | cons y ys ih =>
    by_cases hle : key x ≤ key y
    · simp only [insSorted, if_pos hle]
      refine List.Pairwise.cons ?_ h
      intro z hz
      rcases List.mem_cons.mp hz with hz | hz
      · subst hz
        exact hle
      · exact Nat.le_trans hle (List.rel_of_pairwise_cons h hz)
    · simp only [insSorted, if_neg hle]
      refine List.Pairwise.cons ?_ (ih (List.Pairwise.sublist (List.sublist_cons_self y ys) h))
      intro z hz
      rcases List.mem_cons.mp ((insSorted_perm key x ys).mem_iff.mp hz) with
        hz2 | hz2
      · subst hz2
        exact Nat.le_of_lt (Nat.lt_of_not_le hle)
      · exact List.rel_of_pairwise_cons h hz2

theorem sortByKey_perm (key : α → Nat) (l : List α) :
    List.Perm (sortByKey key l) l := by
  induction l with
  | nil => exact List.Perm.refl _
  | cons x xs ih =>
    exact (insSorted_perm key x (sortByKey key xs)).trans (ih.cons x)

theorem sortByKey_pairwise (key : α → Nat) (l : List α) :
    (sortByKey key l).Pairwise (fun a b => key a ≤ key b) := by
  induction l with
  | nil => simp [sortByKey]
  | cons x xs ih => exact insSorted_pairwise key x (sortByKey key xs) ih

/-- C7 (counterexample): with `frames = 1 > 0` and `log.txt` absent from
`files/`, downloading the frame file `log.txt` should return the
concatenation of the `*_log.txt` frame files; instead the handler's
substring selection also picks up `error_log.txt`, whose prefix `error`
makes `int()` raise, and the response is a 500 — not the concatenation. -/
theorem c7_download_errorlog_crashes :
    mget exErrorLogState.streams "s1" = some ⟨"t1", 1, "OK", 0⟩ ∧
    fmGet (dirGet exErrorLogState "s1").files (nm "log.txt") = none ∧
    fmGet (dirGet exErrorLogState "s1").root (nm "1_log.txt") = some [6, 7] ∧
    (streamDownloadGet exErrorLogState (some "mtok") "s1"
      (nm "log.txt")).1 = raise500 := by decide

/-- C7 (as amended): for a slash-free frame filename not present in
`files/`, a stream with `frames > 0` is served the concatenation of the
directory entries *containing* the name as a substring (excluding
`buffer_*` entries), in ascending order of their integer `_`-prefix —
provided every such entry has one (otherwise the handler raises); the
returned list of chunks is an ordered permutation of the selected set.
If the stream has no committed frames the reply is 200 with an empty
body. -/
theorem c7_download_concat (st : SCVState) (tok user sid : String)
    (sd : StreamData) (owner : String) (fname : Name)
    (ks : List (Name × Nat))
    (hm : mget st.managers tok = some user)
    (hslash : fname.contains '/' = false)
    (hs : mget st.streams sid = some sd)
    (ho : mget st.targetOwners sd.target = some owner)
    (hnf : fmGet (dirGet st sid).files fname = none) :
    (0 < sd.frames →
      dlKeys (dlSelect (dirGet st sid) fname) = some ks →
      ∃ l, streamDownloadGet st (some tok) sid fname =
          (⟨200, .raw (dlConcat (dirGet st sid) l)⟩, st) ∧
        List.Perm l ks ∧ l.Pairwise (fun a b => a.2 ≤ b.2)) ∧
    (sd.frames = 0 →
      streamDownloadGet st (some tok) sid fname = (⟨200, .raw []⟩, st)) := by
  have hsl : '/' ∉ fname := by simpa using hslash
  constructor
  · intro hfr hks
    refine ⟨sortByKey Prod.snd ks, ?_, sortByKey_perm _ _,
      sortByKey_pairwise _ _⟩
    simp [streamDownloadGet, managerGate, currentUser, streamOwner, hm, hsl,
      hs, ho, hnf, hfr, hks]
  · intro hfr
    simp [streamDownloadGet, managerGate, currentUser, streamOwner, hm, hsl,
      hs, ho, hnf, hfr]

/-- A shard where stream `s1` has two committed frame files and one staged
buffer file. -/
def exFramesState : SCVState :=
  { streams := [("s1", ⟨"t1", 2, "OK", 0⟩)],
    active := [],
    targets := [("t1", ⟨[], ["s1"]⟩)],
    heartbeats := [],
    fs := [("s1", ⟨[(nm "state.x", [1])],
                   [(nm "2_f.xtc", [9]), (nm "1_f.xtc", [6, 7]),
                    (nm "buffer_f.xtc", [0])]⟩)],
    managers := [("mtok", "alice")],
    targetOwners := [("t1", "alice")] }

/-- Witness for C7's amended theorem: downloading `f.xtc` selects the two
committed frame files (not the buffer file) and serves them ascending by
frame number. -/
theorem c7_download_concat_witness :
    (mget exFramesState.managers "mtok" = some "alice" ∧
     (nm "f.xtc").contains '/' = false ∧
     mget exFramesState.streams "s1" = some ⟨"t1", 2, "OK", 0⟩ ∧
     mget exFramesState.targetOwners "t1" = some "alice" ∧
     fmGet (dirGet exFramesState "s1").files (nm "f.xtc") = none ∧
     (0 : Nat) < 2 ∧
     dlKeys (dlSelect (dirGet exFramesState "s1") (nm "f.xtc")) =
       some [(nm "2_f.xtc", 2), (nm "1_f.xtc", 1)]) ∧
    (∃ l, streamDownloadGet exFramesState (some "mtok") "s1" (nm "f.xtc") =
        (⟨200, .raw (dlConcat (dirGet exFramesState "s1") l)⟩,
         exFramesState) ∧
      List.Perm l [(nm "2_f.xtc", 2), (nm "1_f.xtc", 1)] ∧
      l.Pairwise (fun a b => a.2 ≤ b.2)) :=
  ⟨⟨by decide, by decide, by decide, by decide, by decide, by decide,
    by decide⟩,
   (c7_download_concat exFramesState "mtok" "alice" "s1" ⟨"t1", 2, "OK", 0⟩
      "alice" (nm "f.xtc") [(nm "2_f.xtc", 2), (nm "1_f.xtc", 1)] (by decide)
      (by decide) (by decide) (by decide) (by decide)).1 (by decide)
     (by decide)⟩

/-! ### Frame-count monotonicity (C9) -/

/-- The committed frame count of a stream, when it exists. -/
def framesOf (st : SCVState) (sid : String) : Option Nat :=
  (mget st.streams sid).map (fun sd => sd.frames)

theorem framesOf_eq_of_streams_eq {st st' : SCVState} (sid : String)
    (h : st'.streams = st.streams) : framesOf st' sid = framesOf st sid := by
  rw [framesOf, framesOf, h]

theorem deactivate_stream_streams (st : SCVState) (sid : String) :
    ((deactivate_stream st sid).2).streams = st.streams := by
  unfold deactivate_stream
  cases mget st.active sid with
  | none => rfl
  | some a =>
    dsimp only [setDir]
    cases mget st.streams sid with
    | none => rfl
    | some sd =>
      dsimp only
      cases mget st.targets sd.target with
      | none => rfl
      | some td => rfl

theorem frameLoop_streams (E : ExtFns) (sid : String)
    (l : List (Name × Bytes)) (st : SCVState) (a : ActiveStreamData) :
    ((frameLoop E sid (st, a) l).1).streams = st.streams := by
  induction l generalizing st a with
  | nil => rfl
  | cons p rest ih => simpa [frameLoop, setActive, setDir] using ih _ _

theorem coreFramePut_streams (E : ExtFns) (st : SCVState)
    (tok : Option String) (body : Bytes) :
    ((coreFramePut E st tok body).2).streams = st.streams := by
  unfold coreFramePut
  cases tok with
  | none => rfl
  | some t =>
    dsimp only
    cases h : lookupToken st.active t with
    | none => rfl
    | some pa =>
      dsimp only
      by_cases hr : pa.2.frame_hash = some (E.md5 body)
      · simp only [if_pos hr]
      · simp only [if_neg hr]
        cases E.parseFrame body with
        | none => rfl
        | some req =>
          dsimp only
          by_cases hfc : req.framesField.isSome ∧ req.framesField.getD 1 < 1
          · simp only [if_pos hfc]
            rfl
          · simp only [if_neg hfc]
            cases req.filesField with
            | none => rfl
            | some files =>
              simpa [setActive] using
                frameLoop_streams E pa.1 files _ _

theorem activatePost_streams (st : SCVState) (fromCC : Bool)
    (req : Option ActReq) (token : String) (now H : Nat) :
    ((activatePost st fromCC req token now H).2).streams = st.streams := by
  unfold activatePost
  by_cases hc : fromCC
  · simp only [hc, not_true_eq_false, if_false]
    cases req with
    | none => rfl
    | some r =>
      dsimp only
      cases mget st.targets r.target_id with
      | none => rfl
      | some td =>
        dsimp only
        cases popMax td.queue with
        | none => rfl
        | some pr =>
          dsimp only
          cases mget st.active pr.1.1 with
          | none => rfl
          | some a => rfl
  · simp [hc]

theorem streamReplacePut_streams (E : ExtFns) (st : SCVState)
    (tok : Option String) (sid : String) (body : Bytes) :
    ((streamReplacePut E st tok sid body).2).streams = st.streams := by
  unfold streamReplacePut
  cases managerGate st tok with
  | none => rfl
  | some user =>
    dsimp only
    cases mget st.streams sid with
    | none => rfl
    | some sd =>
      dsimp only
      cases streamOwner st sid with
      | none => rfl
      | some owner =>
        dsimp only
        by_cases hst : sd.status ≠ "STOPPED"
        · simp only [if_pos hst]
        · simp only [if_neg hst]
          cases E.parseRep body with
          | none => rfl
          | some rep =>
            dsimp only
            cases rep.filesField with
            | none => rfl
            | some files =>
              dsimp only
              cases files.find? (fun p => (fmGet (dirGet st sid).files p.1).isNone) with
              | none => rfl
              | some p => rfl

theorem streamDownloadGet_streams (st : SCVState) (tok : Option String)
    (sid : String) (fname : Name) :
    ((streamDownloadGet st tok sid fname).2).streams = st.streams := by
  unfold streamDownloadGet
  cases managerGate st tok with
  | none => rfl
  | some user =>
    dsimp only
    cases hsl : fname.contains '/' with
    | true => simp only [hsl, if_true]
    | false =>
      simp only [hsl, Bool.false_eq_true, if_false]
      cases mget st.streams sid with
      | none => rfl
      | some sd =>
        dsimp only
        cases streamOwner st sid with
        | none => rfl
        | some owner =>
          dsimp only
          cases fmGet (dirGet st sid).files fname with
          | some content => rfl
          | none =>
            dsimp only
            by_cases hfr : 0 < sd.frames
            · simp only [if_pos hfr]
              cases dlKeys (dlSelect (dirGet st sid) fname) with
              | none => rfl
              | some ks => rfl
            · simp only [if_neg hfr]

theorem coreHeartbeatPost_streams (st : SCVState) (tok : Option String)
    (now H : Nat) :
    ((coreHeartbeatPost st tok now H).2).streams = st.streams := by
  unfold coreHeartbeatPost
  cases tok with
  | none => rfl
  | some t =>
    dsimp only
    cases lookupToken st.active t with
    | none => rfl
    | some pa => rfl

theorem reapLoop_streams (l : List String) :
    ∀ st : SCVState, ((reapLoop st l)).streams = st.streams := by
  induction l with
  | nil => intro st; rfl
  | cons sid rest ih =>
    intro st
    unfold reapLoop
    cases hd : (deactivate_stream st sid).1 with
    | true =>
      simp only [hd, if_true]
      rw [ih _, deactivate_stream_streams]
    | false =>
      simp only [hd, Bool.false_eq_true, if_false]
      exact deactivate_stream_streams st sid

theorem targetDeleteLoop_streams (l : List String) :
    ∀ st : SCVState, ((targetDeleteLoop st l)).streams = st.streams := by
  induction l with
  | nil => intro st; rfl
  | cons sid rest ih =>
    intro st
    unfold targetDeleteLoop
    rw [ih _]
    exact deactivate_stream_streams st sid

theorem mget_merase_or [DecidableEq α] (m : List (α × β)) (x k : α) :
    mget (merase m x) k = mget m k ∨ mget (merase m x) k = none := by
  by_cases h : x = k
  · subst h
    exact Or.inr (mget_merase_self m x)
  · exact Or.inl (mget_merase_ne m x k h)

theorem mget_foldl_merase [DecidableEq α] (l : List α) :
    ∀ (m : List (α × β)) (k : α),
    mget (l.foldl (fun acc x => merase acc x) m) k = mget m k ∨
    mget (l.foldl (fun acc x => merase acc x) m) k = none := by
  induction l with
  | nil => intro m k; exact Or.inl rfl
  | cons x xs ih =>
    intro m k
    simp only [List.foldl_cons]
    rcases ih (merase m x) k with h | h
    · rcases mget_merase_or m x k with h2 | h2
      · exact Or.inl (h.trans h2)
      · exact Or.inr (h.trans h2)
    · exact Or.inr h

theorem streamStartPut_framesOf (st : SCVState) (tok : Option String)
    (sid sid2 : String) :
    framesOf (streamStartPut st tok sid).2 sid2 = framesOf st sid2 := by
  unfold streamStartPut
  cases managerGate st tok with
  | none => rfl
  | some user =>
    dsimp only
    cases hex : mget st.streams sid with
    | none => simp [hex]
    | some sd =>
      simp only [hex, Option.isNone_some, Bool.false_eq_true, if_false]
      cases ho : streamOwner st sid with
      | none => rfl
      | some owner =>
        dsimp only
        by_cases hu : owner ≠ user
        · simp only [if_pos hu]
        · simp only [if_neg hu, hex]
          cases ht : mget st.targets sd.target with
          | none => rfl
          | some td =>
            dsimp only
            by_cases hst : sd.status ≠ "OK"
            · simp only [if_pos hst]
              by_cases he : sid = sid2
              · subst he
                simp [framesOf, mget_mset_self, hex]
              · simp [framesOf, mget_mset_ne _ _ _ _ he]
            · simp only [if_neg hst]

theorem streamStopPut_framesOf (st : SCVState) (tok : Option String)
    (sid sid2 : String) :
    framesOf (streamStopPut st tok sid).2 sid2 = framesOf st sid2 := by
  unfold streamStopPut
  cases managerGate st tok with
  | none => rfl
  | some user =>
    dsimp only
    cases hex : mget st.streams sid with
    | none => simp [hex]
    | some sd =>
      simp only [hex, Option.isNone_some, Bool.false_eq_true, if_false]
      cases ho : streamOwner st sid with
      | none => rfl
      | some owner =>
        dsimp only
        by_cases hu : owner ≠ user
        · simp only [if_pos hu]
        · simp only [if_neg hu]
          have hds := deactivate_stream_streams st sid
          cases hd : (deactivate_stream st sid).1 with
          | false => simp only [Bool.false_eq_true, if_false, not_false_eq_true, if_true]
                     exact framesOf_eq_of_streams_eq sid2 hds
          | true =>
            simp only [if_true, not_true_eq_false, if_false]
            cases hex2 : mget (deactivate_stream st sid).2.streams sid with
            | none => exact framesOf_eq_of_streams_eq sid2 hds
            | some sd1 =>
              dsimp only
              cases ht : mget (deactivate_stream st sid).2.targets sd1.target with
              | none => exact framesOf_eq_of_streams_eq sid2 hds
              | some td =>
                dsimp only
                by_cases hst : sd1.status ≠ "STOPPED"
                · simp only [if_pos hst]
                  rw [hds] at hex2
                  by_cases he : sid = sid2
                  · subst he
                    simp [framesOf, mget_mset_self, hds, hex2]
                  · simp [framesOf, mget_mset_ne _ _ _ _ he, hds]
                · simp only [if_neg hst]
                  exact framesOf_eq_of_streams_eq sid2 hds

theorem streamDeletePut_framesOf (st : SCVState) (tok : Option String)
    (sid sid2 : String) :
    framesOf (streamDeletePut st tok sid).2 sid2 = framesOf st sid2 ∨
    framesOf (streamDeletePut st tok sid).2 sid2 = none := by
  unfold streamDeletePut
  cases managerGate st tok with
  | none => exact Or.inl rfl
  | some user =>
    dsimp only
    cases hex : mget st.streams sid with
    | none => simp [hex]
    | some sd =>
      simp only [hex, Option.isNone_some, Bool.false_eq_true, if_false]
      cases ho : streamOwner st sid with
      | none => exact Or.inl rfl
      | some owner =>
        dsimp only
        by_cases hu : owner ≠ user
        · simp only [if_pos hu]
          exact Or.inl (by simp)
        · simp only [if_neg hu, hex]
          cases ht : mget st.targets sd.target with
          | none => exact Or.inl rfl
          | some td =>
            dsimp only
            rw [apply_ite (fun s : SCVState => framesOf s sid2)]
            by_cases he : sid = sid2
            · subst he
              refine Or.inr ?_
              simp [framesOf, mget_merase_self, ite_self]
            · refine Or.inl ?_
              simp [framesOf, mget_merase_ne _ _ _ he, ite_self]

theorem targetDeletePut_framesOf (st : SCVState) (tid : String)
    (sid2 : String) :
    framesOf (targetDeletePut st tid).2 sid2 = framesOf st sid2 ∨
    framesOf (targetDeletePut st tid).2 sid2 = none := by
  unfold targetDeletePut
  cases ht : mget st.targets tid with
  | none => exact Or.inl rfl
  | some td =>
    dsimp only
    have hl := targetDeleteLoop_streams td.streams st
    rcases mget_foldl_merase td.streams
        (targetDeleteLoop st td.streams).streams sid2 with h | h
    · refine Or.inl ?_
      simp only [framesOf]
      rw [h, hl]
    · refine Or.inr ?_
      simp only [framesOf]
      rw [h]
      rfl

theorem postStreamPost_framesOf (st : SCVState) (tok : Option String)
    (req : Option PostReq) (sidNew : String) (sid2 : String) :
    framesOf (postStreamPost st tok req sidNew).2 sid2 = framesOf st sid2 ∨
    (framesOf st sid2 = none ∧
     framesOf (postStreamPost st tok req sidNew).2 sid2 = some 0) := by
  unfold postStreamPost
  cases managerGate st tok with
  | none => exact Or.inl rfl
  | some user =>
    dsimp only
    cases req with
    | none => exact Or.inl rfl
    | some r =>
      dsimp only [setDir]
      by_cases htg : (mget st.targets r.target_id).isNone = true
      · simp only [htg, if_true]
        cases hex : mget st.streams sidNew with
        | some sd => exact Or.inl rfl
        | none =>
          dsimp only
          cases ht2 : mget (mset st.targets r.target_id
              (⟨[], []⟩ : TargetData)) r.target_id with
          | none => exact Or.inl rfl
          | some td =>
            dsimp only
            by_cases he : sidNew = sid2
            · subst he
              refine Or.inr ⟨by simp [framesOf, hex], ?_⟩
              simp [framesOf, mget_mset_self]
            · refine Or.inl ?_
              simp [framesOf, mget_mset_ne _ _ _ _ he]
      · simp only [htg, Bool.false_eq_true, if_false]
        cases hex : mget st.streams sidNew with
        | some sd => exact Or.inl rfl
        | none =>
          dsimp only
          cases ht2 : mget st.targets r.target_id with
          | none => exact Or.inl rfl
          | some td =>
            dsimp only
            by_cases he : sidNew = sid2
            · subst he
              refine Or.inr ⟨by simp [framesOf, hex], ?_⟩
              simp [framesOf, mget_mset_self]
            · refine Or.inl ?_
              simp [framesOf, mget_mset_ne _ _ _ _ he]

theorem coreStopPut_framesOf (st : SCVState) (tok : Option String)
    (req : Option StopReq) (ts : Bytes) (sid2 : String) :
    framesOf (coreStopPut st tok req ts).2 sid2 = framesOf st sid2 := by
  unfold coreStopPut
  cases tok with
  | none => rfl
  | some t =>
    dsimp only
    cases hlk : lookupToken st.active t with
    | none => rfl
    | some pa =>
      dsimp only
      cases hex : mget st.streams pa.1 with
      | none => rfl
      | some sd =>
        dsimp only
        cases req with
        | none => rfl
        | some r =>
          dsimp only
          cases hr : r.errorField with
          | none =>
            dsimp only
            rw [apply_ite Prod.snd, ite_self]
            exact framesOf_eq_of_streams_eq sid2
              (deactivate_stream_streams _ _)
          | some msg =>
            dsimp only [setDir]
            rw [apply_ite Prod.snd, ite_self]
            rw [framesOf_eq_of_streams_eq sid2
              (deactivate_stream_streams _ _)]
            by_cases he : pa.1 = sid2
            · subst he
              simp [framesOf, mget_mset_self, hex]
            · simp [framesOf, mget_mset_ne _ _ _ _ he]

theorem coreCheckpointPut_framesOf (E : ExtFns) (st : SCVState)
    (tok : Option String) (body : Bytes) (sid2 : String) :
    framesOf (coreCheckpointPut E st tok body).2 sid2 = framesOf st sid2 ∨
    ∃ f B, 0 < B ∧ framesOf st sid2 = some f ∧
      framesOf (coreCheckpointPut E st tok body).2 sid2 = some (f + B) := by
  unfold coreCheckpointPut
  cases tok with
  | none => exact Or.inl rfl
  | some t =>
    dsimp only
    cases hlk : lookupToken st.active t with
    | none => exact Or.inl rfl
    | some pa =>
      dsimp only
      cases hp : E.parseCk body with
      | none => exact Or.inl rfl
      | some req =>
        dsimp only
        cases hex : mget st.streams pa.1 with
        | none => exact Or.inl rfl
        | some sd =>
          dsimp only
          by_cases hB : pa.2.buffer_frames = 0
          · simp only [if_pos hB]
            exact Or.inl (by simp)
          · simp only [if_neg hB]
            cases hf : req.filesField with
            | none => exact Or.inl rfl
            | some ck =>
              dsimp only [setDir]
              cases hrun : (applyOps (dirGet st pa.1)
                  (ckptOps ck pa.2.buffer_files sd.frames
                    (sd.frames + pa.2.buffer_frames))).1 with
              | false =>
                simp only [hrun, Bool.false_eq_true, if_false]
                exact Or.inl rfl
              | true =>
                simp only [hrun, if_true]
                by_cases he : pa.1 = sid2
                · subst he
                  refine Or.inr ⟨sd.frames, pa.2.buffer_frames,
                    Nat.pos_of_ne_zero hB, by simp [framesOf, hex], ?_⟩
                  simp [framesOf, setActive, mget_mset_self]
                · refine Or.inl ?_
                  simp [framesOf, setActive, mget_mset_ne _ _ _ _ he]

/-- C9: across every operation of the shard, a stream's committed `frames`
either is unchanged, or the stream record disappears (delete), or is
created at 0 (`POST /streams`), or — only for `/core/checkpoint` — grows by
the active stream's `buffer_frames`, which is strictly positive there; in
particular `frames` never decreases while the stream exists. -/
theorem c9_frames_monotone (E : ExtFns) (op : Op) (st : SCVState)
    (sid : String) :
    (framesOf (step E op st).2 sid = framesOf st sid ∨
     framesOf (step E op st).2 sid = none ∨
     (framesOf st sid = none ∧ framesOf (step E op st).2 sid = some 0) ∨
     (∃ tok body f B, op = Op.coreCheckpoint tok body ∧ 0 < B ∧
        framesOf st sid = some f ∧
        framesOf (step E op st).2 sid = some (f + B))) ∧
    (∀ f f', framesOf st sid = some f →
      framesOf (step E op st).2 sid = some f' → f ≤ f') := by
  have hchar : framesOf (step E op st).2 sid = framesOf st sid ∨
      framesOf (step E op st).2 sid = none ∨
      (framesOf st sid = none ∧ framesOf (step E op st).2 sid = some 0) ∨
      (∃ tok body f B, op = Op.coreCheckpoint tok body ∧ 0 < B ∧
        framesOf st sid = some f ∧
        framesOf (step E op st).2 sid = some (f + B)) := by
    cases op with
    | postStream tok req sidNew =>
      rcases postStreamPost_framesOf st tok req sidNew sid with h | h
      · exact Or.inl h
      · exact Or.inr (Or.inr (Or.inl h))
    | activate fromCC req token now =>
      exact Or.inl (framesOf_eq_of_streams_eq sid
        (activatePost_streams st fromCC req token now E.H))
    | streamStart tok s =>
      exact Or.inl (streamStartPut_framesOf st tok s sid)
    | streamStop tok s =>
      exact Or.inl (streamStopPut_framesOf st tok s sid)
    | streamDelete tok s =>
      rcases streamDeletePut_framesOf st tok s sid with h | h
      · exact Or.inl h
      · exact Or.inr (Or.inl h)
    | targetDelete tid =>
      rcases targetDeletePut_framesOf st tid sid with h | h
      · exact Or.inl h
      · exact Or.inr (Or.inl h)
    | streamReplace tok s body =>
      exact Or.inl (framesOf_eq_of_streams_eq sid
        (streamReplacePut_streams E st tok s body))
    | streamDownload tok s fname =>
      exact Or.inl (framesOf_eq_of_streams_eq sid
        (streamDownloadGet_streams st tok s fname))
    | coreFrame tok body =>
      exact Or.inl (framesOf_eq_of_streams_eq sid
        (coreFramePut_streams E st tok body))
    | coreCheckpoint tok body =>
      rcases coreCheckpointPut_framesOf E st tok body sid with h | ⟨f, B, hB, h1, h2⟩
      · exact Or.inl h
      · exact Or.inr (Or.inr (Or.inr ⟨tok, body, f, B, rfl, hB, h1, h2⟩))
    | coreStop tok req ts =>
      exact Or.inl (coreStopPut_framesOf st tok req ts sid)
    | coreHeartbeat tok now =>
      exact Or.inl (framesOf_eq_of_streams_eq sid
        (coreHeartbeatPost_streams st tok now E.H))
    | tick now =>
      refine Or.inl (framesOf_eq_of_streams_eq sid ?_)
      unfold step checkHeartbeats
      exact reapLoop_streams _ _
  refine ⟨hchar, ?_⟩
  intro f f' h1 h2
  rcases hchar with h | h | ⟨hn, _⟩ | ⟨tok, body, f0, B, _, hB, ha, hb⟩
  · rw [h, h1] at h2
    cases h2
    exact Nat.le_refl _
  · rw [h] at h2
    cases h2
  · rw [hn] at h1
    cases h1
  · rw [ha] at h1
    rw [hb] at h2
    cases h1
    cases h2
    exact Nat.le_add_right _ _

/-- Witness for C9 at a concrete checkpoint step: the characterization and
monotonicity instantiated at the one-stream shard after a frame upload. -/
theorem c9_frames_monotone_witness :
    (framesOf (step exampleExt (Op.coreCheckpoint (some "ctok") [2])
        (coreFramePut exampleExt exActiveState (some "ctok") [0, 1]).2).2
        "s1" =
      framesOf (coreFramePut exampleExt exActiveState (some "ctok")
        [0, 1]).2 "s1" ∨
     framesOf (step exampleExt (Op.coreCheckpoint (some "ctok") [2])
        (coreFramePut exampleExt exActiveState (some "ctok") [0, 1]).2).2
        "s1" = none ∨
     (framesOf (coreFramePut exampleExt exActiveState (some "ctok")
        [0, 1]).2 "s1" = none ∧
      framesOf (step exampleExt (Op.coreCheckpoint (some "ctok") [2])
        (coreFramePut exampleExt exActiveState (some "ctok") [0, 1]).2).2
        "s1" = some 0) ∨
     (∃ tok body f B,
        Op.coreCheckpoint (some "ctok") [2] = Op.coreCheckpoint tok body ∧
        0 < B ∧
        framesOf (coreFramePut exampleExt exActiveState (some "ctok")
          [0, 1]).2 "s1" = some f ∧
        framesOf (step exampleExt (Op.coreCheckpoint (some "ctok") [2])
          (coreFramePut exampleExt exActiveState (some "ctok") [0, 1]).2).2
          "s1" = some (f + B))) ∧
    (∀ f f',
      framesOf (coreFramePut exampleExt exActiveState (some "ctok")
        [0, 1]).2 "s1" = some f →
      framesOf (step exampleExt (Op.coreCheckpoint (some "ctok") [2])
        (coreFramePut exampleExt exActiveState (some "ctok") [0, 1]).2).2
        "s1" = some f' → f ≤ f') :=
  c9_frames_monotone exampleExt (Op.coreCheckpoint (some "ctok") [2])
    (coreFramePut exampleExt exActiveState (some "ctok") [0, 1]).2 "s1"
